import Mathlib

/-!
Verification of the Readarr add-book workflow of netlify-proxy
(src/netlify/functions/proxy.js, function addBookToReadarr and its helpers).

The JavaScript code is shallowly embedded as pure Lean functions.  Outbound
HTTP calls are modelled by an environment (structure Env) that maps each
request to the response the upstream would give; a run of the workflow
returns both its result (Except String, mirroring thrown errors) and the
ordered list of outbound calls it issued.  JavaScript optional fields are
modelled as Option values; JavaScript truthiness of strings (undefined and
the empty string are falsy) is the function truthyS below.
-/

namespace NetlifyProxy

/-- JS truthiness of an optional string value: undefined and the empty
string are falsy, every other string is truthy. -/
def truthyS : Option String → Bool
  | none => false
  | some s => s ≠ ""

/-- JS expression a || b on two optional string values: the first operand
when truthy, otherwise the second operand unchanged. -/
def jsOrS (a b : Option String) : Option String :=
  if truthyS a then a else b

/-- JS template interpolation of a possibly-undefined string value:
undefined prints as the literal text undefined. -/
def jsShowS : Option String → String
  | none => "undefined"
  | some s => s

/-- JS truthiness of an optional number: undefined and 0 are falsy. -/
def truthyN : Option Nat → Bool
  | none => false
  | some n => n ≠ 0

/-- JS expression a || b for an optional number with a number default. -/
def jsOrN (a : Option Nat) (b : Nat) : Nat :=
  match a with
  | none => b
  | some n => if n = 0 then b else n

/-- JS whitespace test for the regex class backslash-s (common cases). -/
def isWS (c : Char) : Bool :=
  c = ' ' ∨ c = '\t' ∨ c = '\n' ∨ c = '\r'

/-- JS regex word character class: ASCII letters, digits and underscore. -/
def isWordChar (c : Char) : Bool :=
  c.isAlpha ∨ c.isDigit ∨ c = '_'

/-- Strip leading whitespace from a character list. -/
def dropWS : List Char → List Char
  | [] => []
  | c :: rest => if isWS c then dropWS rest else c :: rest

/-- JS String.prototype.trim on a character list. -/
def trimChars (l : List Char) : List Char :=
  ((dropWS l).reverse |> dropWS).reverse

/-- JS String.prototype.trim. -/
def trimStr (s : String) : String :=
  String.mk (trimChars s.data)

/-- Lowercase every character, as JS toLowerCase does on ASCII data. -/
def lowerStr (s : String) : String :=
  String.mk (s.data.map Char.toLower)

/-- The double-quote character. -/
def quoteChar : Char := Char.ofNat 34

/-- The single-quote character. -/
def squoteChar : Char := Char.ofNat 39

/-- Case-insensitive character equality (ASCII). -/
def eqCI (a b : Char) : Bool := a.toLower = b.toLower

/-- Case-insensitive list-prefix test. -/
def matchesCI : List Char → List Char → Bool
  | [], _ => true
  | _ :: _, [] => false
  | p :: ps, c :: cs => eqCI p c ∧ matchesCI ps cs

/-- JS s.replace(new RegExp(escapedPat, i-flag), one space): replace the
first case-insensitive occurrence of pat with a single space. -/
def stripOnceCI (pat : List Char) : List Char → List Char
  | [] => []
  | c :: rest =>
    if matchesCI pat (c :: rest) then ' ' :: (c :: rest).drop pat.length
    else c :: stripOnceCI pat rest

/-- A word boundary holds before the current position given the previous
character (none at the start of the string). -/
def boundaryB (prev : Option Char) : Bool :=
  match prev with
  | none => true
  | some p => ¬ isWordChar p

/-- A word boundary holds between a y and the head of the given tail. -/
def tailBoundary : List Char → Bool
  | [] => true
  | e :: _ => ¬ isWordChar e

/-- The tail starts with y (case-insensitive) followed by a word boundary. -/
def byTailOk : List Char → Bool
  | [] => false
  | d :: rest2 => (d == 'y' || d == 'Y') && tailBoundary rest2

/-- JS s.replace of word-boundary-delimited by (case-insensitive, global)
with a single space. -/
def stripByWordAux (prev : Option Char) (l : List Char) : List Char :=
  match l with
  | [] => []
  | [c] => [c]
  | c :: d :: rest2 =>
    if (c == 'b' || c == 'B') && boundaryB prev then
      if (d == 'y' || d == 'Y') && tailBoundary rest2 then
        ' ' :: stripByWordAux (some ' ') rest2
      else c :: stripByWordAux (some c) (d :: rest2)
    else c :: stripByWordAux (some c) (d :: rest2)

def stripByWord (l : List Char) : List Char := stripByWordAux none l

/-- JS regex-test for word-boundary-delimited by, case-insensitive. -/
def hasByWordAux (prev : Option Char) (l : List Char) : Bool :=
  match l with
  | [] => false
  | c :: rest =>
    ((c == 'b' || c == 'B') && boundaryB prev && byTailOk rest)
    || hasByWordAux (some c) rest

def hasByWord (s : String) : Bool := hasByWordAux none s.data

/-- JS s.replace of a hash followed by digits and everything after it with
a single space (strings are assumed newline-free). -/
def stripHashDigits : List Char → List Char
  | [] => []
  | c :: rest =>
    if c = '#' then
      match rest with
      | [] => [c]
      | d :: _ => if d.isDigit then [' '] else c :: stripHashDigits rest
    else c :: stripHashDigits rest

/-- Suffix of the list after its first closing parenthesis, if any. -/
def afterClose : List Char → Option (List Char)
  | [] => none
  | c :: rest => if c = ')' then some rest else afterClose rest

theorem afterClose_length : ∀ l r, afterClose l = some r → r.length < l.length := by
  intro l
  induction l with
  | nil => intro r h; simp [afterClose] at h
  | cons c rest ih =>
    intro r h
    by_cases hc : c = ')'
    · simp [afterClose, hc] at h
      subst h
      simp only [List.length_cons]; omega
    · simp [afterClose, hc] at h
      have := ih r h
      simp only [List.length_cons]; omega

/-- JS s.replace of parenthesized asides (global) with a single space;
fueled by the list length so the recursion is structural. -/
def stripParensFuel : Nat → List Char → List Char
  | 0, l => l
  | _ + 1, [] => []
  | fuel + 1, c :: rest =>
    if c = '(' then
      match afterClose rest with
      | some rest2 => ' ' :: stripParensFuel fuel rest2
      | none => c :: stripParensFuel fuel rest
    else c :: stripParensFuel fuel rest

def stripParens (l : List Char) : List Char := stripParensFuel l.length l

/-- JS s.replace of every double or single quote with a space. -/
def stripQuoteChars (l : List Char) : List Char :=
  l.map (fun c => if c = quoteChar ∨ c = squoteChar then ' ' else c)

/-- JS s.replace of every run of two or more whitespace characters with a
single space (a lone whitespace character is kept as it is); fueled by the
list length so the recursion is structural. -/
def collapseWSFuel : Nat → List Char → List Char
  | 0, l => l
  | _ + 1, [] => []
  | _ + 1, [c] => [c]
  | fuel + 1, c :: d :: rest =>
    if isWS c ∧ isWS d then collapseWSFuel fuel (' ' :: rest)
    else c :: collapseWSFuel fuel (d :: rest)

def collapseWS (l : List Char) : List Char := collapseWSFuel l.length l

/-- Strip trailing whitespace. -/
def trimTrailingWS (l : List Char) : List Char := (dropWS l.reverse).reverse

/-- JS String.prototype.split on a single comma, on character lists. -/
def splitCommaChars : List Char → List (List Char)
  | [] => [[]]
  | c :: rest =>
    if c = ',' then [] :: splitCommaChars rest
    else
      match splitCommaChars rest with
      | [] => [[c]]
      | p :: ps => (c :: p) :: ps

/-- JS s.split on a comma. -/
def splitComma (s : String) : List String :=
  (splitCommaChars s.data).map String.mk

/-- The comma-flip step at the end of cleanupAuthorName: split on commas,
trim the pieces, drop empty ones, and when at least two remain rebuild
second-space-first (pieces beyond the second are discarded). -/
def commaFlip (s : String) : String :=
  if s.data.contains ',' then
    let parts := ((splitComma s).map trimStr).filter (fun p => p ≠ "")
    match parts with
    | p0 :: p1 :: _ => trimStr (p1 ++ " " ++ p0)
    | _ => s
  else s

/-- proxy.js cleanupAuthorName: strip the book title (first occurrence,
case-insensitive), the word by, trailing hash-digit series markers,
parenthesized asides and quote characters, collapse whitespace runs, trim,
and flip a remaining comma form Last, First into First Last. -/
def cleanupAuthorName (name : String) (bookTitle : String) : String :=
  if name = "" then ""
  else
    let s1 := if bookTitle ≠ "" then stripOnceCI bookTitle.data name.data else name.data
    let s2 := stripByWord s1
    let s3 := stripHashDigits s2
    let s4 := stripParens s3
    let s5 := stripQuoteChars s4
    let s6 := collapseWS s5
    let s7 := trimChars s6
    commaFlip (String.mk s7)

/-- All remainders after an occurrence of word-boundary by followed by at
least one whitespace character (the whitespace run consumed greedily), in
leftmost order.  Used to model the leftmost-first matching of the two
by-Author regexes. -/
def byRemaindersAux (prev : Option Char) (l : List Char) : List (List Char) :=
  match l with
  | [] => []
  | c :: rest =>
    let here :=
      if (c == 'b' || c == 'B') && boundaryB prev then
        match rest with
        | [] => []
        | d :: rest2 =>
          if (d == 'y' || d == 'Y') && (match rest2 with | [] => false | e :: _ => isWS e) then
            [dropWS rest2]
          else []
      else []
    here ++ byRemaindersAux (some c) rest

def byRemainders (l : List Char) : List (List Char) := byRemaindersAux none l

/-- Capture of the title regex by-Author-then-optional-parenthetical: a
lazy run of non-parenthesis characters up to an opening parenthesis
(whitespace directly before it absorbed) or to the end of the string.
A capture that would be pure whitespace is reported as no match; the
caller feeds captures through cleanupAuthorName, which sends pure
whitespace to the empty string, so the two are indistinguishable there. -/
def capA (rest : List Char) : Option (List Char) :=
  match rest.findIdx? (fun c => c = '(') with
  | some j =>
    let pre := rest.take j
    let pre2 := trimTrailingWS pre
    if pre2 = [] ∨ pre.contains ')' then none else some pre2
  | none =>
    if rest = [] ∨ rest.contains ')' then none else some rest

/-- Capture of the strategy-4 by-Author regex: a greedy run of characters
other than dash and opening parenthesis, up to such a delimiter or the end
of the string (the caller trims the capture). -/
def capB (rest : List Char) : Option (List Char) :=
  match rest.findIdx? (fun c => c = '-' ∨ c = '(') with
  | some j =>
    let pre := rest.take j
    if pre = [] then none else some pre
  | none => if rest = [] then none else some rest

/-- Leftmost capture of the extractAuthorNameCandidates title pattern. -/
def byPatternA (s : String) : Option String :=
  ((byRemainders s.data).findSome? capA).map String.mk

/-- Leftmost capture of the strategy-4 title pattern. -/
def byPatternB (s : String) : Option String :=
  ((byRemainders s.data).findSome? capB).map String.mk

/-- Capture of the seriesTitle pattern lazy-prefix-then-hash: the shortest
nonempty prefix whose following characters are optional whitespace then a
hash.  A pure-whitespace capture is reported as no match; the caller sends
such captures through cleanupAuthorName to the empty string, which it
treats the same as no match. -/
def headIsHash : List Char → Bool
  | [] => false
  | d :: _ => d == '#'

def seriesCapGo (acc : List Char) (l : List Char) : Option (List Char) :=
  match l with
  | [] => none
  | c :: rest =>
    if headIsHash (dropWS rest) then
      (if trimTrailingWS (acc ++ [c]) = [] then none else some (trimTrailingWS (acc ++ [c])))
    else seriesCapGo (acc ++ [c]) rest

def seriesCap (s : String) : Option String :=
  (seriesCapGo [] s.data).map String.mk

/-- Lowercase ASCII letter or digit. -/
def isLowerAlnum (c : Char) : Bool :=
  ('a' ≤ c ∧ c ≤ 'z') ∨ ('0' ≤ c ∧ c ≤ '9')

/-- Replace every maximal run of non-alphanumeric characters by a single
space (applied after lowercasing, as in pickBestAuthorMatch); fueled by
the list length so the recursion is structural. -/
def squashNonAlnumFuel : Nat → List Char → List Char
  | 0, l => l
  | _ + 1, [] => []
  | _ + 1, [c] => [if isLowerAlnum c then c else ' ']
  | fuel + 1, c :: d :: rest =>
    if ¬ isLowerAlnum c ∧ ¬ isLowerAlnum d then squashNonAlnumFuel fuel (' ' :: rest)
    else (if isLowerAlnum c then c else ' ') :: squashNonAlnumFuel fuel (d :: rest)

def squashNonAlnum (l : List Char) : List Char := squashNonAlnumFuel l.length l

/-- The name normalization of pickBestAuthorMatch: lowercase, squash
non-alphanumeric runs to single spaces, trim. -/
def normName (v : Option String) : String :=
  String.mk (trimChars (squashNonAlnum (lowerStr (jsShowS0 v)).data))
where
  /-- JS String(v or empty): inside pickBestAuthorMatch the value has
  already been defaulted with a falsy-or, so only the string payload
  matters. -/
  jsShowS0 : Option String → String
    | none => ""
    | some s => s

/-- List-prefix test on characters. -/
def startsWithChars : List Char → List Char → Bool
  | [], _ => true
  | _ :: _, [] => false
  | p :: ps, c :: cs => p == c && startsWithChars ps cs

/-- Contiguous-sublist test on characters. -/
def isSubChars (needle hay : List Char) : Bool :=
  match hay with
  | [] => needle.isEmpty
  | _ :: rest => startsWithChars needle hay || isSubChars needle rest

/-- Substring test, JS String.prototype.includes. -/
def containsSub (hay needle : String) : Bool :=
  isSubChars needle.data hay.data

/-- Replace every whitespace run by a single dash (applied after
lowercasing): the synthesized-author identifier slug; fueled by the list
length so the recursion is structural. -/
def slugWSFuel : Nat → List Char → List Char
  | 0, l => l
  | _ + 1, [] => []
  | _ + 1, [c] => [if isWS c then '-' else c]
  | fuel + 1, c :: d :: rest =>
    if isWS c ∧ isWS d then slugWSFuel fuel (' ' :: rest)
    else (if isWS c then '-' else c) :: slugWSFuel fuel (d :: rest)

def slugWS (l : List Char) : List Char := slugWSFuel l.length l

def slugify (s : String) : String := String.mk (slugWS (lowerStr s).data)

/-- The title part of the final synthetic edition identifier: optional
chaining on the title (undefined prints as the literal text undefined),
lowercased with every non-alphanumeric character removed. -/
def synTitlePart : Option String → String
  | none => "undefined"
  | some t => String.mk ((lowerStr t).data.filter isLowerAlnum)

/-- The list starts with the given tag and continues with one or more
decimal digits and nothing else. -/
def hasTagDigits (tag : List Char) (l : List Char) : Bool :=
  match tag, l with
  | [], rest => rest ≠ [] && rest.all (fun c => '0' ≤ c && c ≤ '9')
  | _ :: _, [] => false
  | p :: ps, c :: cs => p == c && hasTagDigits ps cs

/-- The identifier matches synthetic-digits or fallback-digits. -/
def syntheticPattern (s : String) : Bool :=
  hasTagDigits "synthetic-".data s.data || hasTagDigits "fallback-".data s.data

/-!  Data model.  Identifier-like JS values are modelled as strings (the
data model of the spec declares them strings); absent fields are none.
Fields that the workflow writes but never reads again (images, genres and
ratings of synthesized author records, for instance) are elided where
noted. -/

/-- An author record as returned by the author lookups or synthesized by
the resolution strategies.  The images, genres and ratings fields written
by strategies 4 and 5 are never read downstream and are elided. -/
structure AuthorRec where
  authorName : Option String := none
  name : Option String := none
  foreignAuthorId : Option String := none
  foreignId : Option String := none
  foreign_id : Option String := none
  overview : Option String := none
  deriving Repr, DecidableEq

/-- An edition record, both as returned by edition lookup and as stored in
book.editions (including the synthetic editions the workflow creates). -/
structure EditionRec where
  title : Option String := none
  titleSlug : Option String := none
  images : Option (List String) := none
  foreignEditionId : Option String := none
  foreignId : Option String := none
  foreign_id : Option String := none
  goodreadsEditionId : Option String := none
  goodreadsId : Option String := none
  editionId : Option String := none
  id : Option String := none
  monitored : Bool := false
  manualAdd : Bool := false
  deriving Repr, DecidableEq

/-- A result record of the book-metadata lookup (strategy 3 reads only its
author field). -/
structure BookLookupRec where
  author : Option AuthorRec := none
  deriving Repr, DecidableEq

/-- A root-folder record: the workflow reads path, then Path, then name. -/
structure RootRec where
  path : Option String := none
  Path : Option String := none
  name : Option String := none
  deriving Repr, DecidableEq

/-- A profile record; only its id is read. -/
structure ProfileRec where
  id : Nat
  deriving Repr, DecidableEq

/-- The incoming book object (externally sourced, partially populated). -/
structure Book where
  title : Option String := none
  titleSlug : Option String := none
  authorTitle : Option String := none
  seriesTitle : Option String := none
  author : Option AuthorRec := none
  foreignBookId : Option String := none
  foreignEditionId : Option String := none
  foreignId : Option String := none
  isbn13 : Option String := none
  isbn10 : Option String := none
  isbn : Option String := none
  asin : Option String := none
  goodreadsId : Option String := none
  editionId : Option String := none
  genres : List String := []
  images : Option (List String) := none
  editions : Option (List EditionRec) := none
  deriving Repr, DecidableEq

/-- The caller-supplied request data destructured at the top of
addBookToReadarr.  The authorMonitor and authorSearchForMissingBooks
fields are destructured in the source but never used and are elided. -/
structure ReqData where
  term : Option String := none
  book : Option Book := none
  qualityProfileId : Option Nat := none
  metadataProfileId : Option Nat := none
  rootFolderPath : Option String := none
  monitored : Option Bool := none
  searchForNewBook : Option Bool := none
  foreignEditionId : Option String := none
  deriving Repr, DecidableEq

/-- One entry of the editions array of the submitted add payload. -/
structure EditionPayload where
  title : String
  titleSlug : String
  images : List String
  foreignEditionId : String
  monitored : Bool
  manualAdd : Bool
  deriving Repr, DecidableEq

/-- The add payload POSTed to the book endpoint. -/
structure AddPayload where
  monitored : Bool
  searchForNewBook : Bool
  authorMonitored : Bool
  qualityProfileId : Nat
  metadataProfileId : Nat
  foreignAuthorId : String
  rootFolderPath : String
  editions : List EditionPayload
  foreignBookId : Option String := none
  deriving Repr, DecidableEq

deriving instance DecidableEq for Except

/-- One outbound HTTP request of the workflow, in issue order. -/
inductive Call where
  | authorLookup (term : String)
  | bookInfoAuthor (term : String)
  | bookLookup (term : String)
  | editionLookup (term : String)
  | qualityProfiles
  | metadataProfiles
  | rootFolders
  | addSubmit (payload : AddPayload)
  deriving Repr, DecidableEq

/-- The upstream behaviour for one run: the response each request would
receive.  For the lookups, none models a thrown error or a non-2xx
response, some is the decoded body.  bookInfoAuthor responses are already
translated to the AuthorRec shape (the secondary-provider client renames
name to authorName, id to foreignAuthorId, biography to overview before
returning); some empty-list means the provider answered with zero results,
which that client turns into a thrown error.  now is the millisecond clock
read by the synthetic-identifier fallbacks. -/
structure Env where
  authorLookup : String → Option (List AuthorRec)
  bookInfoAuthor : String → Option (List AuthorRec)
  bookLookup : String → Option (List BookLookupRec)
  editionLookup : String → Option (List EditionRec)
  qualityProfiles : Option (List ProfileRec)
  metadataProfiles : Option (List ProfileRec)
  rootFolders : Option (List RootRec)
  addOk : Bool
  now : Nat

/-- JS coercion of a possibly-undefined string to a string with falsy-or
default of the empty string, as in (v or empty-string). -/
def jsStr (o : Option String) : String := o.getD ""

/-- The images list of the book, defaulted as Array.isArray does. -/
def imagesOf (book : Book) : List String := book.images.getD []

/-- Insertion into a JS Set modelled as an order-preserving list. -/
def setAdd (l : List String) (s : String) : List String :=
  if s ∈ l then l else l ++ [s]

/-- proxy.js extractAuthorNameCandidates: candidate author-name strings
from authorTitle (plus a comma flip), from a by-Author pattern in the
title, and from the same pattern in the search term; deduplicated in
insertion order and filtered to length at least 3. -/
def extractAuthorNameCandidates (book : Book) (term : Option String) : List String :=
  let title := jsStr book.title
  let names : List String := []
  let names :=
    if truthyS book.authorTitle then
      let raw := cleanupAuthorName (jsStr book.authorTitle) title
      let names1 := if raw ≠ "" then setAdd names raw else names
      if (jsStr book.authorTitle).data.contains ',' then
        let parts := (splitComma (jsStr book.authorTitle)).map trimStr
        match parts with
        | p0 :: p1 :: _ =>
          let flipped := cleanupAuthorName (p1 ++ " " ++ p0) title
          if flipped ≠ "" then setAdd names1 flipped else names1
        | _ => names1
      else names1
    else names
  let names :=
    if title ≠ "" then
      match byPatternA title with
      | some cap =>
        let n := cleanupAuthorName cap title
        if n ≠ "" then setAdd names n else names
      | none => names
    else names
  let names :=
    match term with
    | some t =>
      if hasByWord t then
        match byPatternA t with
        | some cap =>
          let n2 := cleanupAuthorName cap title
          if n2 ≠ "" then setAdd names n2 else names
        | none => names
      else names
    | none => names
  names.filter (fun n => n.length ≥ 3)

/-- Loop body of pickBestAuthorMatch: first normalized-exact match returns
immediately, otherwise the first containment match is remembered. -/
def pickBestGo (cand : String) (best : Option AuthorRec) (rs : List AuthorRec) : Option AuthorRec :=
  match rs with
  | [] => best
  | r :: rest =>
    let n := normName (jsOrS r.authorName r.name)
    if n = "" then pickBestGo cand best rest
    else if n = cand then some r
    else if best.isNone ∧ (containsSub n cand ∨ containsSub cand n) then
      pickBestGo cand (some r) rest
    else pickBestGo cand best rest

/-- proxy.js pickBestAuthorMatch. -/
def pickBestAuthorMatch (results : List AuthorRec) (candidate : String) : Option AuthorRec :=
  match pickBestGo (normName (some candidate)) none results with
  | some r => some r
  | none => results.head?

/-- Strategy 4 of the author-resolution chain: pattern-derived author from
the title by-Author pattern, the cleaned authorTitle, or the seriesTitle
prefix, synthesized with a slugified identifier when at least two
characters long. -/
def strat4Author (book : Book) : Option AuthorRec :=
  let title := jsStr book.title
  let authorTitle := jsStr book.authorTitle
  let ext1 : String :=
    match byPatternB title with
    | some cap => trimStr cap
    | none => ""
  let ext2 := if ext1 = "" ∧ authorTitle ≠ "" then cleanupAuthorName authorTitle title else ext1
  let ext3 :=
    if ext2 = "" ∧ truthyS book.seriesTitle then
      match seriesCap (jsStr book.seriesTitle) with
      | some cap => cleanupAuthorName cap title
      | none => ext2
    else ext2
  if ext3 ≠ "" ∧ ext3.length ≥ 2 then
    some { authorName := some ext3,
           foreignAuthorId := some (slugify ext3),
           overview := some ("Author of " ++ title) }
  else none

/-- Strategy 5 of the author-resolution chain: generic fallback author
when the book has any title or foreign book identifier. -/
def strat5Author (book : Book) : Option AuthorRec :=
  if truthyS book.title ∨ truthyS book.foreignBookId then
    let fallbackName := if truthyS book.authorTitle then jsStr book.authorTitle else "Unknown Author"
    some { authorName := some fallbackName,
           foreignAuthorId := some (if slugify fallbackName = "" then "unknown" else slugify fallbackName),
           overview := some ("Author information for " ++ (if truthyS book.title then jsStr book.title else "book")) }
  else none

/-- book.author optional-chained authorName or name. -/
def authorNameOf (book : Book) : Option String :=
  jsOrS (match book.author with | some a => a.authorName | none => none)
        (match book.author with | some a => a.name | none => none)

/-- One goodreads-prefixed search term when the identifier is truthy. -/
def goodreadsTermOf (o : Option String) : List String :=
  if truthyS o then ["goodreads:" ++ jsStr o] else []

/-- The search terms both passes push after the two goodreads terms, in
push order: ISBN-13, ISBN-10 (or generic isbn), ASIN, the two
title-author combinations, and the bare title. -/
def editionTermsTail (book : Book) : List String :=
  (if truthyS book.isbn13 then ["isbn:" ++ jsStr book.isbn13] else []) ++
  (if truthyS (jsOrS book.isbn10 book.isbn) then
      ["isbn:" ++ jsStr (jsOrS book.isbn10 book.isbn)] else []) ++
  (if truthyS book.asin then ["asin:" ++ jsStr book.asin] else []) ++
  (if truthyS book.title ∧ truthyS (authorNameOf book) then
      [jsStr book.title ++ " " ++ jsStr (authorNameOf book),
       jsStr (authorNameOf book) ++ " " ++ jsStr book.title]
    else []) ++
  (if truthyS book.title then [jsStr book.title] else [])

/-- Search terms of edition-resolution Pass A, in push order: edition-ID
term first, then book-ID term; the original search term is appended only
when not already present. -/
def buildEditionTermsA (book : Book) (term : Option String) : List String :=
  let base := goodreadsTermOf book.foreignEditionId ++ goodreadsTermOf book.foreignBookId ++
    editionTermsTail book
  base ++ (match term with
    | some t => if t ≠ "" ∧ ¬ (t ∈ base) then [t] else []
    | none => [])

/-- Search terms of edition-resolution Pass B, in push order: the book-ID
term comes first and the original search term is appended whenever truthy,
with no duplicate check. -/
def buildEditionTermsB (book : Book) (term : Option String) : List String :=
  goodreadsTermOf book.foreignBookId ++ goodreadsTermOf book.foreignEditionId ++
    editionTermsTail book ++
    (if truthyS term then [jsStr term] else [])

/-- The some-check deciding whether Pass B runs: an existing edition with
any of the listed identifier fields. -/
def hasForeignEdIdent (es : List EditionRec) : Bool :=
  es.any (fun e => truthyS e.foreignEditionId ∨ truthyS e.foreignId ∨ truthyS e.foreign_id
    ∨ truthyS e.goodreadsId ∨ truthyS e.editionId)

/-- The falsy-or chain picking the identifier of a transformed edition. -/
def editionIdChain (e : EditionRec) : Option String :=
  jsOrS e.foreignEditionId (jsOrS e.goodreadsEditionId (jsOrS e.goodreadsId
    (jsOrS e.foreignId (jsOrS e.foreign_id (jsOrS e.editionId e.id)))))

/-- One edition record mapped to the submission shape. -/
def transformEdition (book : Book) (e : EditionRec) : EditionPayload :=
  { title := jsStr (jsOrS e.title book.title)
    titleSlug := jsStr (jsOrS e.titleSlug book.titleSlug)
    images := match e.images with | some l => l | none => imagesOf book
    foreignEditionId := jsStr (editionIdChain e)
    monitored := true
    manualAdd := true }

/-- The edition transform: map to the submission shape, then drop entries
whose resulting identifier is empty. -/
def editionTransform (book : Book) (es : List EditionRec) : List EditionPayload :=
  (es.map (transformEdition book)).filter (fun e => e.foreignEditionId ≠ "")

/-- The singleton edition payload built from book-level data (used by the
caller-supplied-identifier branch and both fallback branches, which share
this shape in the source). -/
def mkBookEdition (book : Book) (feiStr : String) : EditionPayload :=
  { title := jsStr book.title
    titleSlug := jsStr book.titleSlug
    images := imagesOf book
    foreignEditionId := feiStr
    monitored := true
    manualAdd := true }

/-- The direct book identifiers tried when the transform yields nothing. -/
def possibleIdsOf (book : Book) : List String :=
  ([book.foreignEditionId, book.foreignBookId, book.foreignId, book.isbn13,
    book.isbn10, book.isbn, book.goodreadsId, book.editionId].filterMap id).filter
    (fun s => trimStr s ≠ "")

/-- The final synthetic edition identifier. -/
def syntheticIdOf (book : Book) (now : Nat) : String :=
  let chain := jsOrS book.foreignBookId (jsOrS book.foreignEditionId (jsOrS book.isbn13 book.isbn10))
  if truthyS chain then jsStr chain
  else "syn-" ++ synTitlePart book.title ++ "-" ++ toString now

/-- Lines 858 to 926 of proxy.js: the editions payload, from the
caller-supplied identifier, else the transform of the existing editions,
else the direct book identifiers, else a synthetic identifier. -/
def buildEditionsPayload (incomingFei : Option String) (book : Book) (now : Nat) : List EditionPayload :=
  let ep0 := if truthyS incomingFei then [mkBookEdition book (jsStr incomingFei)]
    else editionTransform book (book.editions.getD [])
  let ep1 := if ep0.isEmpty then
      (match possibleIdsOf book with
       | pid :: _ => [mkBookEdition book pid]
       | [] => [])
    else ep0
  if ep1.isEmpty then [mkBookEdition book (syntheticIdOf book now)] else ep1

/-!  The workflow stages.  Each stage returns its own outcome together
with the ordered list of outbound calls it issued; the main function
concatenates the traces in program order.  Thrown JS errors are Except
errors; response-body details interpolated into some messages (status
texts, the diagnostics JSON) are elided as noted. -/

/-- Lines 474 to 480: the search term, from the explicit term or the book
fields. -/
def computeSearchTerm (data : ReqData) : Option String :=
  if truthyS data.term then data.term
  else
    match data.book with
    | none => data.term
    | some b =>
      jsOrS b.authorTitle
        (jsOrS (match b.author with | some a => jsOrS a.name a.authorName | none => none) b.title)

def lookupAuthorRequiresTermMsg : String := "lookup_author requires \"term\""

/-- proxy.js lookupReadarrAuthor: throws before any fetch when the term is
falsy, throws on a non-2xx response (status text elided). -/
def lookupReadarrAuthorM (env : Env) (term : Option String) : Except String (List AuthorRec) × List Call :=
  if ¬ truthyS term then (.error lookupAuthorRequiresTermMsg, [])
  else
    match env.authorLookup (jsStr term) with
    | none => (.error "Failed to lookup author", [Call.authorLookup (jsStr term)])
    | some rs => (.ok rs, [Call.authorLookup (jsStr term)])

/-- proxy.js lookupBookInfoProAuthor: one fetch; non-2xx and zero-result
responses both throw. -/
def lookupBookInfoStr (env : Env) (t : String) : Except String (List AuthorRec) × List Call :=
  match env.bookInfoAuthor t with
  | none => (.error "BookInfo.pro API error", [Call.bookInfoAuthor t])
  | some [] => (.error "No results found in BookInfo.pro", [Call.bookInfoAuthor t])
  | some rs => (.ok rs, [Call.bookInfoAuthor t])

/-- Lines 482 to 499: initial author lookup with BookInfo.pro fallback
(the fallback error is caught; an empty final list throws). -/
def stage1 (env : Env) (st : Option String) : Except String (List AuthorRec) × List Call :=
  let a := lookupReadarrAuthorM env st
  match a.1 with
  | .error e => (.error e, a.2)
  | .ok rs =>
    if rs.isEmpty then
      let b := lookupBookInfoStr env (jsStr st)
      match b.1 with
      | .ok rs2 =>
        if rs2.isEmpty then (.error ("Author lookup failed for term: " ++ jsShowS st), a.2 ++ b.2)
        else (.ok rs2, a.2 ++ b.2)
      | .error _ => (.error ("Author lookup failed for term: " ++ jsShowS st), a.2 ++ b.2)
    else (.ok rs, a.2)

/-- Line 508: the chain runs when the author is absent or lacks a truthy
authorName (foreignAuthorId is not consulted here). -/
def authorIncomplete : Option AuthorRec → Bool
  | none => true
  | some a => ¬ truthyS a.authorName

/-- Prepend one issued call to a loop result. -/
def consCall {α : Type} (c : Call) (pr : Option α × List Call) : Option α × List Call :=
  (pr.1, c :: pr.2)

/-- Prepend several issued calls to a loop result. -/
def prependCalls {α : Type} (cs : List Call) (pr : Option α × List Call) : Option α × List Call :=
  (pr.1, cs ++ pr.2)

/-- Strategy 1 loop (lines 519 to 537): Readarr author lookup per
candidate; per-candidate errors are caught and the loop continues. -/
def strat1Loop (env : Env) (cands : List String) : Option AuthorRec × List Call :=
  match cands with
  | [] => (none, [])
  | c :: rest =>
    match env.authorLookup c with
    | none => consCall (Call.authorLookup c) (strat1Loop env rest)
    | some rs =>
      if rs.isEmpty then consCall (Call.authorLookup c) (strat1Loop env rest)
      else
        match pickBestAuthorMatch rs c with
        | some best =>
          if truthyS (jsOrS best.authorName best.name) then (some best, [Call.authorLookup c])
          else consCall (Call.authorLookup c) (strat1Loop env rest)
        | none => consCall (Call.authorLookup c) (strat1Loop env rest)

/-- Strategy 2 loop (lines 540 to 554): BookInfo.pro lookup per candidate;
the try/catch wraps the whole loop, so the first thrown lookup (including
the zero-results throw of the client) aborts the entire strategy. -/
def strat2Loop (env : Env) (cands : List String) : Option AuthorRec × List Call :=
  match cands with
  | [] => (none, [])
  | c :: rest =>
    let b := lookupBookInfoStr env c
    match b.1 with
    | .error _ => (none, b.2)
    | .ok rs =>
      match rs with
      | a :: _ => (some a, b.2)
      | [] => prependCalls b.2 (strat2Loop env rest)

/-- Strategy 3 (lines 557 to 572): book-metadata lookup by foreign book
id, taking its embedded author when present. -/
def strat3 (env : Env) (book : Book) : Option AuthorRec × List Call :=
  if truthyS book.foreignBookId then
    let t := "goodreads:" ++ jsStr book.foreignBookId
    match env.bookLookup t with
    | none => (none, [Call.bookLookup t])
    | some [] => (none, [Call.bookLookup t])
    | some (b :: _) => (b.author, [Call.bookLookup t])
  else (none, [])

/-- Lines 511 to 631: the five resolution strategies in order, first
success preempting the rest. -/
def authorChainCore (env : Env) (book : Book) (searchTerm : Option String) : Option AuthorRec × List Call :=
  let cands := extractAuthorNameCandidates book searchTerm
  let s1 := if cands.isEmpty then ((none : Option AuthorRec), ([] : List Call)) else strat1Loop env cands
  match s1.1 with
  | some a => (some a, s1.2)
  | none =>
    let s2 := if cands.isEmpty then ((none : Option AuthorRec), ([] : List Call)) else strat2Loop env cands
    match s2.1 with
    | some a => (some a, s1.2 ++ s2.2)
    | none =>
      let s3 := strat3 env book
      match s3.1 with
      | some a => (some a, s1.2 ++ s2.2 ++ s3.2)
      | none =>
        match strat4Author book with
        | some a => (some a, s1.2 ++ s2.2 ++ s3.2)
        | none => (strat5Author book, s1.2 ++ s2.2 ++ s3.2)

def authorResolutionFailedMsg : String :=
  "Unable to resolve author for book addition. All resolution strategies failed."

/-- Lines 507 to 641: the resolution chain, entered only when the author
is incomplete in the sense of authorIncomplete; on success the resolved
author is written into the book. -/
def resolveAuthorChain (env : Env) (book : Book) (searchTerm : Option String) :
    Except String Book × List Call :=
  if authorIncomplete book.author then
    let r := authorChainCore env book searchTerm
    match r.1 with
    | some a => (.ok { book with author := some a }, r.2)
    | none => (.error authorResolutionFailedMsg, r.2)
  else (.ok book, [])

def noQualityProfilesMsg : String := "No Readarr quality profiles available"

def noMetadataProfilesMsg : String := "No Readarr metadata profiles available"

/-- Lines 643 to 650 with getReadarrDefaultProfileIds (lines 1083 to
1095): caller-supplied ids are used as they are; otherwise both profile
lists are fetched (both requests are issued together) and the first entry
of each supplies the default; an empty quality list, then an empty
metadata list, is fatal. -/
def stageProfiles (env : Env) (data : ReqData) : Except String (Nat × Nat) × List Call :=
  if truthyN data.qualityProfileId ∧ truthyN data.metadataProfileId then
    (.ok (data.qualityProfileId.getD 0, data.metadataProfileId.getD 0), [])
  else
    let cs := [Call.qualityProfiles, Call.metadataProfiles]
    match env.qualityProfiles with
    | none => (.error "Failed to get quality profiles", cs)
    | some qps =>
      match env.metadataProfiles with
      | none => (.error "Failed to get metadata profiles", cs)
      | some qlist =>
        match qps with
        | [] => (.error noQualityProfilesMsg, cs)
        | q :: _ =>
          match qlist with
          | [] => (.error noMetadataProfilesMsg, cs)
          | m :: _ => (.ok (jsOrN data.qualityProfileId q.id, jsOrN data.metadataProfileId m.id), cs)

def noRootFolderMsg : String := "No root folder path provided and no defaults available from Readarr"

/-- The defaulted root-folder value of line 662: the first entry when the
list is nonempty, reading path, then Path, then name. -/
def rootPathOf : List RootRec → Option String
  | [] => none
  | r :: _ => jsOrS r.path (jsOrS r.Path r.name)

def stageRoot (env : Env) (data : ReqData) : Except String String × List Call :=
  if truthyS data.rootFolderPath then (.ok (jsStr data.rootFolderPath), [])
  else
    match env.rootFolders with
    | none => (.error noRootFolderMsg, [Call.rootFolders])
    | some roots =>
      if truthyS (rootPathOf roots) then (.ok (jsStr (rootPathOf roots)), [Call.rootFolders])
      else (.error noRootFolderMsg, [Call.rootFolders])

def faidMissingMsg : String :=
  "Readarr add requires author.foreignAuthorId; author lookup did not provide it"

/-- The lookup loop of lines 683 to 699: per candidate, first result with
a truthy foreignAuthorId wins; failed fetches continue the loop. -/
def faidLoop (env : Env) (cands : List String) : Option String × List Call :=
  match cands with
  | [] => (none, [])
  | c :: rest =>
    match env.authorLookup c with
    | none => consCall (Call.authorLookup c) (faidLoop env rest)
    | some [] => consCall (Call.authorLookup c) (faidLoop env rest)
    | some (b :: _) =>
      if truthyS b.foreignAuthorId then (some (jsStr b.foreignAuthorId), [Call.authorLookup c])
      else consCall (Call.authorLookup c) (faidLoop env rest)

/-- The falsy-or chain of line 672: the foreign author identifier already
on the author record. -/
def authorFaidChain (book : Book) : Option String :=
  match book.author with
  | some a => jsOrS a.foreignAuthorId (jsOrS a.foreignId a.foreign_id)
  | none => none

/-- The candidate names of lines 679 to 682. -/
def faidCandidates (book : Book) : List String :=
  (match book.author with
   | some a =>
     (if truthyS a.authorName then [jsStr a.authorName] else []) ++
     (if truthyS a.name then [jsStr a.name] else [])
   | none => []) ++
  (if truthyS book.authorTitle then [jsStr book.authorTitle] else [])

def stageFaid (env : Env) (book : Book) : Except String String × List Call :=
  if truthyS (authorFaidChain book) then (.ok (jsStr (authorFaidChain book)), [])
  else
    let fl := faidLoop env (faidCandidates book)
    match fl.1 with
    | some f => (.ok f, fl.2)
    | none => (.error faidMissingMsg, fl.2)

/-- Lines 706 to 708: copy authorName into name when name is missing. -/
def normalizeAuthorName (book : Book) : Book :=
  match book.author with
  | some a =>
    if ¬ truthyS a.name ∧ truthyS a.authorName then
      { book with author := some { a with name := a.authorName } }
    else book
  | none => book

/-- The lookup loop of Pass A (lines 738 to 760): first term with a
nonempty result wins; among its results an exact case-insensitive title
match is preferred over the first result. -/
def editionLoopA (env : Env) (bookTitle : Option String) (terms : List String) :
    Option EditionRec × List Call :=
  match terms with
  | [] => (none, [])
  | t :: rest =>
    match env.editionLookup t with
    | none => consCall (Call.editionLookup t) (editionLoopA env bookTitle rest)
    | some [] => consCall (Call.editionLookup t) (editionLoopA env bookTitle rest)
    | some (a :: as1) =>
      let best := ((a :: as1).find? (fun e =>
        truthyS e.title ∧ truthyS bookTitle ∧
          lowerStr (jsStr e.title) = lowerStr (jsStr bookTitle))).getD a
      (some best, [Call.editionLookup t])

/-- The synthetic edition of Pass A (lines 763 to 773). -/
def synthEditionA (book : Book) (now : Nat) : EditionRec :=
  { title := some (jsStr book.title)
    titleSlug := some (jsStr book.titleSlug)
    images := some (imagesOf book)
    foreignEditionId := some (jsStr (jsOrS book.foreignEditionId
      (jsOrS book.foreignBookId (some ("synthetic-" ++ toString now)))))
    monitored := true
    manualAdd := true }

/-- Pass A (lines 712 to 777): runs when editions are absent or empty;
writes the found or synthesized edition into the book, or normalizes
editions to an empty array. -/
def passA (env : Env) (term : Option String) (book : Book) : Book × List Call :=
  match book.editions with
  | some (_ :: _) => (book, [])
  | _ =>
    let s := editionLoopA env book.title (buildEditionTermsA book term)
    match s.1 with
    | some best => ({ book with editions := some [{ best with monitored := true }] }, s.2)
    | none =>
      if truthyS book.title then
        ({ book with editions := some [synthEditionA book env.now] }, s.2)
      else ({ book with editions := some (book.editions.getD []) }, s.2)

/-- The lookup loop of Pass B (lines 803 to 826): first term with a
nonempty result wins; among its results the first one carrying an
identifier field is preferred over the first result. -/
def editionLoopB (env : Env) (terms : List String) : Option EditionRec × List Call :=
  match terms with
  | [] => (none, [])
  | t :: rest =>
    match env.editionLookup t with
    | none => consCall (Call.editionLookup t) (editionLoopB env rest)
    | some [] => consCall (Call.editionLookup t) (editionLoopB env rest)
    | some (a :: as1) =>
      let valid := ((a :: as1).find? (fun e =>
        truthyS e.foreignEditionId ∨ truthyS e.foreignId ∨ truthyS e.goodreadsId
          ∨ truthyS e.editionId)).getD a
      (some valid, [Call.editionLookup t])

/-- The fallback edition of Pass B (lines 829 to 841). -/
def fallbackEditionB (book : Book) (now : Nat) : EditionRec :=
  { title := some (jsStr book.title)
    titleSlug := some (jsStr book.titleSlug)
    images := some (imagesOf book)
    foreignEditionId := some (jsStr (jsOrS book.foreignEditionId (jsOrS book.foreignBookId
      (jsOrS book.isbn13 (jsOrS book.isbn10 (some ("fallback-" ++ toString now)))))))
    monitored := true
    manualAdd := true }

/-- Pass B (lines 779 to 842): runs when no existing edition carries a
recognizable identifier field. -/
def passB (env : Env) (term : Option String) (book : Book) : Book × List Call :=
  if hasForeignEdIdent (book.editions.getD []) then (book, [])
  else
    let s := editionLoopB env (buildEditionTermsB book term)
    match s.1 with
    | some valid => ({ book with editions := some [{ valid with monitored := true }] }, s.2)
    | none => ({ book with editions := some [fallbackEditionB book env.now] }, s.2)

def typeErrorBookMsg : String := "TypeError: Cannot read properties of undefined (reading author)"

def authorInfoMissingMsg : String := "Lookup did not return author information required by Readarr"

/-- The unreachable empty-editions-payload error (line 939); the embedded
diagnostics JSON is elided. -/
def noValidEditionMsg : String := "Unable to create valid edition for Readarr add. Diagnostics: "

def addFailedMsg : String := "Failed to add book"

/-- proxy.js addBookToReadarr (lines 455 to 994): the full workflow.  The
result carries the submitted payload (standing for the upstream add
response echoed back) and the success message; the trace lists every
outbound call in order. -/
def addBookToReadarr (env : Env) (data : ReqData) : Except String (AddPayload × String) × List Call :=
  let searchTerm := computeSearchTerm data
  let s1 := stage1 env searchTerm
  match s1.1 with
  | .error e => (.error e, s1.2)
  | .ok _lookup =>
    match data.book with
    | none => (.error typeErrorBookMsg, s1.2)
    | some book0 =>
      let rc := resolveAuthorChain env book0 searchTerm
      match rc.1 with
      | .error e => (.error e, s1.2 ++ rc.2)
      | .ok book1 =>
        let sp := stageProfiles env data
        match sp.1 with
        | .error e => (.error e, s1.2 ++ rc.2 ++ sp.2)
        | .ok qpmp =>
          if book1.author.isNone then (.error authorInfoMissingMsg, s1.2 ++ rc.2 ++ sp.2)
          else
            let sr := stageRoot env data
            match sr.1 with
            | .error e => (.error e, s1.2 ++ rc.2 ++ sp.2 ++ sr.2)
            | .ok rootFolderPath =>
              let sf := stageFaid env book1
              match sf.1 with
              | .error e => (.error e, s1.2 ++ rc.2 ++ sp.2 ++ sr.2 ++ sf.2)
              | .ok faid =>
                let book2 := normalizeAuthorName book1
                let pA := passA env data.term book2
                let pB := passB env data.term pA.1
                let book4 := pB.1
                let ep := buildEditionsPayload data.foreignEditionId book4 env.now
                if ep.isEmpty then
                  (.error noValidEditionMsg, s1.2 ++ rc.2 ++ sp.2 ++ sr.2 ++ sf.2 ++ pA.2 ++ pB.2)
                else
                  let payload : AddPayload :=
                    { monitored := data.monitored.getD true
                      searchForNewBook := data.searchForNewBook.getD true
                      authorMonitored := false
                      qualityProfileId := qpmp.1
                      metadataProfileId := qpmp.2
                      foreignAuthorId := faid
                      rootFolderPath := rootFolderPath
                      editions := ep
                      foreignBookId := if truthyS book4.foreignBookId then some (jsStr book4.foreignBookId) else none }
                  let tAll := s1.2 ++ rc.2 ++ sp.2 ++ sr.2 ++ sf.2 ++ pA.2 ++ pB.2 ++ [Call.addSubmit payload]
                  if env.addOk then
                    (.ok (payload,
                      "Successfully added book \"" ++ jsShowS book4.title ++ "\" to Readarr" ++
                        (if data.searchForNewBook.getD true then " and triggered search" else "")), tAll)
                  else (.error addFailedMsg, tAll)

/-!  Trace lemmas: every stage before the final POST issues no add
submission, so any add submission in a trace of the workflow is the one
built at the end from buildEditionsPayload. -/

/-- No add-submission call occurs in the trace t. -/
def NoSub (t : List Call) : Prop := ∀ p, Call.addSubmit p ∉ t

theorem noSub_nil : NoSub [] := by
  intro p h; simp at h

theorem noSub_append {a b : List Call} (ha : NoSub a) (hb : NoSub b) : NoSub (a ++ b) := by
  intro p h
  rcases List.mem_append.mp h with h1 | h2
  · exact ha p h1
  · exact hb p h2

theorem noSub_cons {c : Call} {t : List Call} (hc : ∀ p, c ≠ Call.addSubmit p)
    (ht : NoSub t) : NoSub (c :: t) := by
  intro p h
  rcases List.mem_cons.mp h with h1 | h2
  · exact hc p h1.symm
  · exact ht p h2

theorem noSub_consCall {α : Type} {c : Call} (hc : ∀ p, c ≠ Call.addSubmit p)
    {pr : Option α × List Call} (h : NoSub pr.2) : NoSub (consCall c pr).2 :=
  noSub_cons hc h

theorem noSub_prependCalls {α : Type} {cs : List Call} (hcs : NoSub cs)
    {pr : Option α × List Call} (h : NoSub pr.2) : NoSub (prependCalls cs pr).2 :=
  noSub_append hcs h

theorem noSub_lookupReadarrAuthorM (env : Env) (t : Option String) :
    NoSub (lookupReadarrAuthorM env t).2 := by
  unfold lookupReadarrAuthorM
  split
  · exact noSub_nil
  · split <;> (intro p h; simp at h)

theorem noSub_lookupBookInfoStr (env : Env) (t : String) :
    NoSub (lookupBookInfoStr env t).2 := by
  unfold lookupBookInfoStr
  split <;> (intro p h; simp at h)

theorem noSub_stage1 (env : Env) (st : Option String) : NoSub (stage1 env st).2 := by
  have h1 := noSub_lookupReadarrAuthorM env st
  have h2 := noSub_lookupBookInfoStr env (jsStr st)
  simp only [stage1]
  split
  · exact h1
  · split
    · split
      · split
        · exact noSub_append h1 h2
        · exact noSub_append h1 h2
      · exact noSub_append h1 h2
    · exact h1

theorem noSub_singleton {c : Call} (hc : ∀ p, c ≠ Call.addSubmit p) : NoSub [c] :=
  noSub_cons hc noSub_nil

theorem noSub_strat1Loop (env : Env) (cands : List String) : NoSub (strat1Loop env cands).2 := by
  induction cands with
  | nil => exact noSub_nil
  | cons c rest ih =>
    simp only [strat1Loop]
    split
    · exact noSub_consCall (by intro p h; exact Call.noConfusion h) ih
    · split
      · exact noSub_consCall (by intro p h; exact Call.noConfusion h) ih
      · split
        · split
          · exact noSub_singleton (by intro p h; exact Call.noConfusion h)
          · exact noSub_consCall (by intro p h; exact Call.noConfusion h) ih
        · exact noSub_consCall (by intro p h; exact Call.noConfusion h) ih

theorem noSub_strat2Loop (env : Env) (cands : List String) : NoSub (strat2Loop env cands).2 := by
  induction cands with
  | nil => exact noSub_nil
  | cons c rest ih =>
    have hb := noSub_lookupBookInfoStr env c
    simp only [strat2Loop]
    split
    · exact hb
    · split
      · exact hb
      · exact noSub_prependCalls hb ih

theorem noSub_strat3 (env : Env) (book : Book) : NoSub (strat3 env book).2 := by
  simp only [strat3]
  split
  · split
    · exact noSub_singleton (by intro p h; exact Call.noConfusion h)
    · exact noSub_singleton (by intro p h; exact Call.noConfusion h)
    · exact noSub_singleton (by intro p h; exact Call.noConfusion h)
  · exact noSub_nil

theorem noSub_authorChainCore (env : Env) (book : Book) (st : Option String) :
    NoSub (authorChainCore env book st).2 := by
  have h1 : NoSub (if (extractAuthorNameCandidates book st).isEmpty then
      ((none : Option AuthorRec), ([] : List Call))
    else strat1Loop env (extractAuthorNameCandidates book st)).2 := by
    split
    · exact noSub_nil
    · exact noSub_strat1Loop env _
  have h2 : NoSub (if (extractAuthorNameCandidates book st).isEmpty then
      ((none : Option AuthorRec), ([] : List Call))
    else strat2Loop env (extractAuthorNameCandidates book st)).2 := by
    split
    · exact noSub_nil
    · exact noSub_strat2Loop env _
  have h3 := noSub_strat3 env book
  simp only [authorChainCore]
  split
  · exact h1
  · split
    · exact noSub_append h1 h2
    · split
      · exact noSub_append (noSub_append h1 h2) h3
      · split
        · exact noSub_append (noSub_append h1 h2) h3
        · exact noSub_append (noSub_append h1 h2) h3

theorem noSub_resolveAuthorChain (env : Env) (book : Book) (st : Option String) :
    NoSub (resolveAuthorChain env book st).2 := by
  simp only [resolveAuthorChain]
  split
  · split <;> exact noSub_authorChainCore env book st
  · exact noSub_nil

theorem noSub_stageProfiles (env : Env) (data : ReqData) : NoSub (stageProfiles env data).2 := by
  have hcs : NoSub [Call.qualityProfiles, Call.metadataProfiles] :=
    noSub_cons (by intro p h; exact Call.noConfusion h)
      (noSub_singleton (by intro p h; exact Call.noConfusion h))
  unfold stageProfiles
  split
  · exact noSub_nil
  · split
    · exact hcs
    · split
      · exact hcs
      · split
        · exact hcs
        · split
          · exact hcs
          · exact hcs

theorem noSub_stageRoot (env : Env) (data : ReqData) : NoSub (stageRoot env data).2 := by
  have hcs : NoSub [Call.rootFolders] :=
    noSub_singleton (by intro p h; exact Call.noConfusion h)
  simp only [stageRoot]
  split
  · exact noSub_nil
  · split
    · exact hcs
    · split
      · exact hcs
      · exact hcs

theorem noSub_faidLoop (env : Env) (cands : List String) : NoSub (faidLoop env cands).2 := by
  induction cands with
  | nil => exact noSub_nil
  | cons c rest ih =>
    simp only [faidLoop]
    split
    · exact noSub_consCall (by intro p h; exact Call.noConfusion h) ih
    · exact noSub_consCall (by intro p h; exact Call.noConfusion h) ih
    · split
      · exact noSub_singleton (by intro p h; exact Call.noConfusion h)
      · exact noSub_consCall (by intro p h; exact Call.noConfusion h) ih

theorem noSub_stageFaid (env : Env) (book : Book) : NoSub (stageFaid env book).2 := by
  simp only [stageFaid]
  split
  · exact noSub_nil
  · split <;> exact noSub_faidLoop env _

theorem noSub_editionLoopA (env : Env) (bt : Option String) (terms : List String) :
    NoSub (editionLoopA env bt terms).2 := by
  induction terms with
  | nil => exact noSub_nil
  | cons t rest ih =>
    simp only [editionLoopA]
    split
    · exact noSub_consCall (by intro p h; exact Call.noConfusion h) ih
    · exact noSub_consCall (by intro p h; exact Call.noConfusion h) ih
    · exact noSub_singleton (by intro p h; exact Call.noConfusion h)

theorem noSub_passA (env : Env) (term : Option String) (book : Book) :
    NoSub (passA env term book).2 := by
  simp only [passA]
  split
  · exact noSub_nil
  · split
    · exact noSub_editionLoopA env book.title _
    · split
      · exact noSub_editionLoopA env book.title _
      · exact noSub_editionLoopA env book.title _

theorem noSub_editionLoopB (env : Env) (terms : List String) :
    NoSub (editionLoopB env terms).2 := by
  induction terms with
  | nil => exact noSub_nil
  | cons t rest ih =>
    simp only [editionLoopB]
    split
    · exact noSub_consCall (by intro p h; exact Call.noConfusion h) ih
    · exact noSub_consCall (by intro p h; exact Call.noConfusion h) ih
    · exact noSub_singleton (by intro p h; exact Call.noConfusion h)

theorem noSub_passB (env : Env) (term : Option String) (book : Book) :
    NoSub (passB env term book).2 := by
  simp only [passB]
  split
  · exact noSub_nil
  · split
    · exact noSub_editionLoopB env _
    · exact noSub_editionLoopB env _

/-!  Shape of the editions payload. -/

theorem jsStr_ne_empty_of_truthy {o : Option String} (h : truthyS o = true) : jsStr o ≠ "" := by
  cases o with
  | none => simp [truthyS] at h
  | some s =>
    simp only [truthyS, ne_eq, decide_eq_true_eq] at h
    simpa [jsStr] using h

theorem trimStr_empty : trimStr "" = "" := rfl

theorem ne_empty_of_trim {s : String} (h : trimStr s ≠ "") : s ≠ "" := by
  intro he
  exact h (he ▸ trimStr_empty)

theorem string_append_ne_empty_left {a b : String} (h : a ≠ "") : a ++ b ≠ "" := by
  intro he
  apply h
  have hl := congrArg String.length he
  rw [String.length_append] at hl
  have : a.length = 0 := by
    have := String.length_empty
    omega
  cases a with
  | mk l =>
    cases l with
    | nil => rfl
    | cons c cs => simp [String.length, List.length] at this

theorem syntheticIdOf_ne_empty (book : Book) (now : Nat) : syntheticIdOf book now ≠ "" := by
  simp only [syntheticIdOf]
  split
  · next h => exact jsStr_ne_empty_of_truthy h
  · exact string_append_ne_empty_left (string_append_ne_empty_left
      (string_append_ne_empty_left (by simp)))

theorem possibleIdsOf_ne_empty {book : Book} {s : String} (h : s ∈ possibleIdsOf book) : s ≠ "" := by
  unfold possibleIdsOf at h
  have := (List.mem_filter.mp h).2
  exact ne_empty_of_trim (by simpa using this)

theorem editionTransform_ids_ne (book : Book) (es : List EditionRec) :
    ∀ e ∈ editionTransform book es, e.foreignEditionId ≠ "" := by
  intro e he
  unfold editionTransform at he
  have := (List.mem_filter.mp he).2
  simpa using this

theorem ite_isEmpty_ne_nil {α : Type} (l : List α) (x : α) :
    (if l.isEmpty then [x] else l) ≠ [] := by
  by_cases h : l.isEmpty
  · rw [if_pos h]; simp
  · rw [if_neg h]; simpa [List.isEmpty_iff] using h

theorem mem_ite_isEmpty {α : Type} {e x : α} {l : List α}
    (he : e ∈ (if l.isEmpty then [x] else l)) : e = x ∨ e ∈ l := by
  by_cases h : l.isEmpty
  · rw [if_pos h] at he
    exact .inl (List.mem_singleton.mp he)
  · rw [if_neg h] at he
    exact .inr he

/-- The editions payload is never empty. -/
theorem buildEditionsPayload_ne_nil (fei : Option String) (book : Book) (now : Nat) :
    buildEditionsPayload fei book now ≠ [] := by
  simp only [buildEditionsPayload]
  exact ite_isEmpty_ne_nil _ _

/-- Every entry of the editions payload carries a nonempty identifier. -/
theorem buildEditionsPayload_ids_ne (fei : Option String) (book : Book) (now : Nat) :
    ∀ e ∈ buildEditionsPayload fei book now, e.foreignEditionId ≠ "" := by
  intro e he
  simp only [buildEditionsPayload] at he
  rcases mem_ite_isEmpty he with rfl | he1
  · exact syntheticIdOf_ne_empty book now
  · by_cases h0 : (if truthyS fei then [mkBookEdition book (jsStr fei)]
      else editionTransform book (book.editions.getD [])).isEmpty
    · rw [if_pos h0] at he1
      rcases hp : possibleIdsOf book with _ | ⟨pid, rest⟩
      · rw [hp] at he1
        simp at he1
      · rw [hp] at he1
        rw [List.mem_singleton] at he1
        subst he1
        exact possibleIdsOf_ne_empty (hp ▸ List.mem_cons_self pid rest)
    · rw [if_neg h0] at he1
      by_cases hf : truthyS fei
      · rw [if_pos hf] at he1
        rw [List.mem_singleton] at he1
        subst he1
        exact jsStr_ne_empty_of_truthy hf
      · rw [if_neg hf] at he1
        exact editionTransform_ids_ne book _ e he1

/-- With a truthy caller-supplied identifier, the payload is exactly the
one book-derived record carrying it. -/
theorem buildEditionsPayload_of_truthy {fei : Option String} (book : Book) (now : Nat)
    (h : truthyS fei = true) :
    buildEditionsPayload fei book now = [mkBookEdition book (jsStr fei)] := by
  simp [buildEditionsPayload, h]

/-- Every add submission the workflow issues carries the editions payload
built by buildEditionsPayload from the caller identifier, the book state
after both passes, and the clock. -/
theorem submit_payload_shape (env : Env) (data : ReqData) (p : AddPayload)
    (h : Call.addSubmit p ∈ (addBookToReadarr env data).2) :
    ∃ b, p.editions = buildEditionsPayload data.foreignEditionId b env.now := by
  have hs1 := noSub_stage1 env (computeSearchTerm data)
  simp only [addBookToReadarr] at h
  split at h
  · exact absurd h (hs1 p)
  · split at h
    · exact absurd h (hs1 p)
    · next book0 _ =>
      have hrc := noSub_resolveAuthorChain env book0 (computeSearchTerm data)
      split at h
      · exact absurd h (noSub_append hs1 hrc p)
      · next book1 _ =>
        have hsp := noSub_stageProfiles env data
        split at h
        · exact absurd h (noSub_append (noSub_append hs1 hrc) hsp p)
        · next qpmp _ =>
          split at h
          · exact absurd h (noSub_append (noSub_append hs1 hrc) hsp p)
          · have hsr := noSub_stageRoot env data
            split at h
            · exact absurd h (noSub_append (noSub_append (noSub_append hs1 hrc) hsp) hsr p)
            · next rfp _ =>
              have hsf := noSub_stageFaid env book1
              split at h
              · exact absurd h
                  (noSub_append (noSub_append (noSub_append (noSub_append hs1 hrc) hsp) hsr) hsf p)
              · next faid _ =>
                have hpa := noSub_passA env data.term (normalizeAuthorName book1)
                have hpb := noSub_passB env data.term
                  (passA env data.term (normalizeAuthorName book1)).1
                split at h
                · exact absurd h
                    (noSub_append (noSub_append (noSub_append (noSub_append (noSub_append
                      (noSub_append hs1 hrc) hsp) hsr) hsf) hpa) hpb p)
                · split at h <;>
                  · rcases List.mem_append.mp h with h1 | h2
                    · exact absurd h1
                        (noSub_append (noSub_append (noSub_append (noSub_append (noSub_append
                          (noSub_append hs1 hrc) hsp) hsr) hsf) hpa) hpb p)
                    · rw [List.mem_singleton] at h2
                      injection h2 with h3
                      subst h3
                      exact ⟨_, rfl⟩

/-!  Decimal rendering of the clock: nonempty and all digits. -/

theorem digitChar_digit {m : Nat} (h : m < 10) :
    '0' ≤ Nat.digitChar m ∧ Nat.digitChar m ≤ '9' := by
  interval_cases m <;> exact (by decide)

theorem toDigitsCore_digits :
    ∀ (fuel n : Nat) (acc : List Char),
      (∀ c ∈ acc, '0' ≤ c ∧ c ≤ '9') →
      ∀ c ∈ Nat.toDigitsCore 10 fuel n acc, '0' ≤ c ∧ c ≤ '9' := by
  intro fuel
  induction fuel with
  | zero =>
    intro n acc hacc c hc
    exact hacc c hc
  | succ f ih =>
    intro n acc hacc c hc
    have hd : '0' ≤ Nat.digitChar (n % 10) ∧ Nat.digitChar (n % 10) ≤ '9' :=
      digitChar_digit (Nat.mod_lt n (by omega))
    simp only [Nat.toDigitsCore] at hc
    split at hc
    · rcases List.mem_cons.mp hc with rfl | hmem
      · exact hd
      · exact hacc c hmem
    · refine ih (n / 10) _ ?_ c hc
      intro x hx
      rcases List.mem_cons.mp hx with rfl | hx2
      · exact hd
      · exact hacc x hx2

theorem toDigitsCore_ne_nil_acc :
    ∀ (fuel n : Nat) (acc : List Char), acc ≠ [] → Nat.toDigitsCore 10 fuel n acc ≠ [] := by
  intro fuel
  induction fuel with
  | zero => intro n acc h; exact h
  | succ f ih =>
    intro n acc h
    simp only [Nat.toDigitsCore]
    split
    · simp
    · exact ih (n / 10) _ (by simp)

theorem toDigits_ne_nil (n : Nat) : Nat.toDigits 10 n ≠ [] := by
  unfold Nat.toDigits
  simp only [Nat.toDigitsCore]
  split
  · simp
  · exact toDigitsCore_ne_nil_acc n (n / 10) _ (by simp)

theorem natToString_data (n : Nat) : (toString n).data = Nat.toDigits 10 n := rfl

theorem natToString_all_digits (n : Nat) :
    ((toString n).data.all fun c => '0' ≤ c && c ≤ '9') = true := by
  rw [List.all_eq_true]
  intro c hc
  rw [natToString_data] at hc
  have := toDigitsCore_digits (n + 1) n [] (by simp) c hc
  simp [this.1, this.2]

theorem hasTagDigits_tag_append (tag rest : List Char) :
    hasTagDigits tag (tag ++ rest) =
      (rest ≠ [] && rest.all fun c => '0' ≤ c && c ≤ '9') := by
  induction tag with
  | nil => rfl
  | cons p ps ih => simp [hasTagDigits, ih]

theorem syntheticPattern_synthetic (n : Nat) :
    syntheticPattern ("synthetic-" ++ toString n) = true := by
  have hdata : ("synthetic-" ++ toString n).data = "synthetic-".data ++ (toString n).data :=
    String.data_append _ _
  have h1 : (toString n).data ≠ [] := by
    rw [natToString_data]; exact toDigits_ne_nil n
  simp only [syntheticPattern, hdata, hasTagDigits_tag_append]
  simp [h1, natToString_all_digits n]

theorem syntheticPattern_fallback (n : Nat) :
    syntheticPattern ("fallback-" ++ toString n) = true := by
  have hdata : ("fallback-" ++ toString n).data = "fallback-".data ++ (toString n).data :=
    String.data_append _ _
  have h1 : (toString n).data ≠ [] := by
    rw [natToString_data]; exact toDigits_ne_nil n
  simp only [syntheticPattern, hdata, hasTagDigits_tag_append]
  simp [h1, natToString_all_digits n]

/-!  Failure of the edition-lookup loops when the upstream never yields a
result. -/

theorem editionLoopA_none (env : Env) (bt : Option String)
    (hlook : ∀ t, env.editionLookup t = none ∨ env.editionLookup t = some []) :
    ∀ terms, (editionLoopA env bt terms).1 = none := by
  intro terms
  induction terms with
  | nil => rfl
  | cons t rest ih =>
    simp only [editionLoopA]
    rcases hlook t with h | h <;> rw [h] <;> simpa [consCall] using ih

theorem editionLoopB_none (env : Env)
    (hlook : ∀ t, env.editionLookup t = none ∨ env.editionLookup t = some []) :
    ∀ terms, (editionLoopB env terms).1 = none := by
  intro terms
  induction terms with
  | nil => rfl
  | cons t rest ih =>
    simp only [editionLoopB]
    rcases hlook t with h | h <;> rw [h] <;> simpa [consCall] using ih

theorem head_append_left {α : Type} {l1 l2 : List α} (h : l1 ≠ []) :
    (l1 ++ l2).head? = l1.head? := by
  cases l1 with
  | nil => exact absurd rfl h
  | cons a l => rfl

/-- The one dynamic error message of the workflow differs from the
empty-editions diagnostics message whatever the interpolated term. -/
theorem author_lookup_failed_ne (s : String) :
    ("Author lookup failed for term: " ++ s) ≠ noValidEditionMsg := by
  intro h
  have hd := congrArg String.data h
  rw [String.data_append] at hd
  have h1 := congrArg List.head? hd
  rw [head_append_left (by decide)] at h1
  exact absurd h1 (by decide)

/-!  Shape of the book through the author stages: only the author field is
ever rewritten before the edition passes. -/

theorem resolveAuthorChain_ok_shape (env : Env) (b : Book) (st : Option String) (b' : Book)
    (h : (resolveAuthorChain env b st).1 = .ok b') :
    b' = b ∨ ∃ a, b' = { b with author := some a } := by
  simp only [resolveAuthorChain] at h
  split at h
  · split at h
    · next a _ =>
      right
      exact ⟨a, by injection h with h2; exact h2.symm⟩
    · exact absurd h (by simp)
  · left
    injection h with h2
    exact h2.symm

theorem normalizeAuthorName_shape (b : Book) :
    normalizeAuthorName b = b ∨ ∃ a, normalizeAuthorName b = { b with author := some a } := by
  unfold normalizeAuthorName
  cases hb : b.author with
  | none => exact .inl rfl
  | some a =>
    dsimp only
    by_cases hc : ¬ truthyS a.name = true ∧ truthyS a.authorName = true
    · right
      exact ⟨{ a with name := a.authorName }, by rw [if_pos hc]⟩
    · left
      rw [if_neg hc]

/-- The book reaching the edition passes agrees with the incoming book on
every field except possibly the author. -/
theorem book2_shape (env : Env) (b : Book) (st : Option String) (b1 : Book)
    (h : (resolveAuthorChain env b st).1 = .ok b1) :
    normalizeAuthorName b1 = b ∨ ∃ a, normalizeAuthorName b1 = { b with author := some a } := by
  rcases resolveAuthorChain_ok_shape env b st b1 h with h1 | ⟨a, h1⟩
  · rw [h1]
    exact normalizeAuthorName_shape b
  · rw [h1]
    rcases normalizeAuthorName_shape { b with author := some a } with h2 | ⟨a2, h2⟩
    · exact .inr ⟨a, h2⟩
    · exact .inr ⟨a2, h2⟩

/-!  The edition passes under an upstream whose edition lookups never
yield a result. -/

theorem passA_empty_result (env : Env) (term : Option String) (b : Book)
    (hbe : b.editions = none ∨ b.editions = some [])
    (hlook : ∀ t, env.editionLookup t = none ∨ env.editionLookup t = some []) :
    (passA env term b).1 =
      (if truthyS b.title then { b with editions := some [synthEditionA b env.now] }
       else { b with editions := some (b.editions.getD []) }) := by
  have hl := editionLoopA_none env b.title hlook (buildEditionTermsA b term)
  rcases hbe with h | h
  · simp only [passA, h]
    rw [hl]
    by_cases hc : truthyS b.title = true
    · simp [hc, h]
    · simp [hc, h]
  · simp only [passA, h]
    rw [hl]
    by_cases hc : truthyS b.title = true
    · simp [hc, h]
    · simp [hc, h]

theorem passB_skip (env : Env) (term : Option String) (b : Book)
    (h : hasForeignEdIdent (b.editions.getD []) = true) :
    passB env term b = (b, []) := by
  simp [passB, h]

theorem passB_fallback_result (env : Env) (term : Option String) (b : Book)
    (h : hasForeignEdIdent (b.editions.getD []) = false)
    (hlook : ∀ t, env.editionLookup t = none ∨ env.editionLookup t = some []) :
    (passB env term b).1 = { b with editions := some [fallbackEditionB b env.now] } := by
  have hl := editionLoopB_none env hlook (buildEditionTermsB b term)
  simp only [passB, h]
  rw [hl]
  simp

/-- Transforming a single edition whose own foreignEditionId is truthy
keeps exactly that record, identifier unchanged. -/
theorem editionTransform_singleton_fei (b : Book) (ed : EditionRec)
    (hs : truthyS ed.foreignEditionId = true) :
    editionTransform b [ed] = [transformEdition b ed] ∧
      (transformEdition b ed).foreignEditionId = jsStr ed.foreignEditionId := by
  have hid : (transformEdition b ed).foreignEditionId = jsStr ed.foreignEditionId := by
    simp [transformEdition, editionIdChain, jsOrS, hs]
  refine ⟨?_, hid⟩
  have hne : (transformEdition b ed).foreignEditionId ≠ "" := by
    rw [hid]
    exact jsStr_ne_empty_of_truthy hs
  simp [editionTransform, hne]

/-- With no caller identifier and a single identifier-bearing edition on
the book, the payload is that edition transformed. -/
theorem buildEditionsPayload_single_transform {fei0 : Option String}
    (hf : truthyS fei0 = false) (b : Book) (ed : EditionRec)
    (hbe : b.editions = some [ed]) (hs : truthyS ed.foreignEditionId = true) (now : Nat) :
    buildEditionsPayload fei0 b now = [transformEdition b ed] ∧
      (transformEdition b ed).foreignEditionId = jsStr ed.foreignEditionId := by
  obtain ⟨ht, hid⟩ := editionTransform_singleton_fei b ed hs
  refine ⟨?_, hid⟩
  simp [buildEditionsPayload, hf, hbe, ht]

/-!  Concrete scenarios: environments and requests used to instantiate or
refute the claims. -/

/-- An environment whose lookups always come back empty and whose lists
are empty. -/
def envTriv : Env :=
  { authorLookup := fun _ => some []
    bookInfoAuthor := fun _ => none
    bookLookup := fun _ => none
    editionLookup := fun _ => some []
    qualityProfiles := some []
    metadataProfiles := some []
    rootFolders := some []
    addOk := true
    now := 0 }

/-- Scenario with a fully-specified request: complete author, one edition
with an identifier, caller-supplied profile ids and root folder; the
upstream profile lists are empty and edition lookups always fail. -/
def envC7 : Env :=
  { authorLookup := fun t =>
      if t = "A" then some [{ authorName := some "A", foreignAuthorId := some "fa-1" }] else some []
    bookInfoAuthor := fun _ => none
    bookLookup := fun _ => none
    editionLookup := fun _ => some []
    qualityProfiles := some []
    metadataProfiles := some []
    rootFolders := some []
    addOk := true
    now := 7 }

def bookC7 : Book :=
  { title := some "T"
    author := some { authorName := some "A", name := some "A", foreignAuthorId := some "fa-1" }
    editions := some [{ title := some "T", foreignEditionId := some "e1" }] }

def dataC7 : ReqData :=
  { book := some bookC7
    qualityProfileId := some 1
    metadataProfileId := some 1
    rootFolderPath := some "/books" }

/-- The same request with the profile ids left out. -/
def dataC7w : ReqData :=
  { book := some bookC7
    rootFolderPath := some "/books" }

def pC7 : AddPayload :=
  { monitored := true
    searchForNewBook := true
    authorMonitored := false
    qualityProfileId := 1
    metadataProfileId := 1
    foreignAuthorId := "fa-1"
    rootFolderPath := "/books"
    editions := [{ title := "T", titleSlug := "", images := [], foreignEditionId := "e1",
                   monitored := true, manualAdd := true }]
    foreignBookId := none }

def msgC7 : String := "Successfully added book \"T\" to Readarr and triggered search"

/-- The secondary-provider record of the strategy-ordering scenario. -/
def biRec : AuthorRec := { authorName := some "Frank Herbert", foreignAuthorId := some "bi-123" }

/-- Environment of the strategy-ordering counterexample: the primary
author lookup always returns zero results; the secondary provider throws
for the first extracted candidate and succeeds for the second. -/
def envC2 : Env :=
  { authorLookup := fun _ => some []
    bookInfoAuthor := fun t => if t = "Frank Herbert" then some [biRec] else none
    bookLookup := fun _ => none
    editionLookup := fun _ => some []
    qualityProfiles := some [⟨3⟩]
    metadataProfiles := some [⟨4⟩]
    rootFolders := some []
    addOk := true
    now := 5 }

def bookC2 : Book :=
  { title := some "Dune by Frank Herbert", authorTitle := some "Zelazny, Roger" }

/-- The strategy-4 record the chain actually resolves in that scenario. -/
def strat4RecC2 : AuthorRec :=
  { authorName := some "Frank Herbert"
    foreignAuthorId := some "frank-herbert"
    overview := some "Author of Dune by Frank Herbert" }

/-- Environment of the strategy-ordering witness: primary lookups empty,
secondary succeeding on the first candidate. -/
def envC2w : Env :=
  { envC2 with bookInfoAuthor := fun _ => some [biRec] }

def bookC2w : Book := { authorTitle := some "Frank Herbert" }

/-- A book whose author has a name but no foreign identifier. -/
def bookC3 : Book := { title := some "T", author := some { authorName := some "Alice" } }

/-- Environment for the synthetic-identifier scenarios, parameterized by
the clock; every edition lookup returns zero results. -/
def envClock (now : Nat) : Env :=
  { authorLookup := fun t => if t = "T" then some [{ authorName := some "X" }] else some []
    bookInfoAuthor := fun _ => none
    bookLookup := fun _ => none
    editionLookup := fun _ => some []
    qualityProfiles := some []
    metadataProfiles := some []
    rootFolders := some []
    addOk := true
    now := now }

/-- A book with no identifier of any kind. -/
def bookC10 : Book := { title := some "T" }

def dataC10 : ReqData :=
  { book := some bookC10
    qualityProfileId := some 1
    metadataProfileId := some 1
    rootFolderPath := some "/books" }

/-- The add payload of the no-identifier scenario at the given clock. -/
def pC10 (now : Nat) : AddPayload :=
  { monitored := true
    searchForNewBook := true
    authorMonitored := false
    qualityProfileId := 1
    metadataProfileId := 1
    foreignAuthorId := "unknown-author"
    rootFolderPath := "/books"
    editions := [{ title := "T", titleSlug := "", images := [],
                   foreignEditionId := "synthetic-" ++ toString now,
                   monitored := true, manualAdd := true }]
    foreignBookId := none }

def msgC10 : String := "Successfully added book \"T\" to Readarr and triggered search"

/-- The no-identifier request with a caller-supplied edition identifier. -/
def dataC4 : ReqData :=
  { book := some bookC10
    qualityProfileId := some 1
    metadataProfileId := some 1
    rootFolderPath := some "/books"
    foreignEditionId := some "fe-9" }

/-- A book carrying only a foreign edition identifier (no ISBN, ASIN or
foreign book id). -/
def bookC9 : Book := { title := some "T", foreignEditionId := some "abc777" }

def dataC9 : ReqData :=
  { book := some bookC9
    qualityProfileId := some 1
    metadataProfileId := some 1
    rootFolderPath := some "/books" }

/-- The edition submitted for that book: its identifier is the book-level
foreignEditionId, copied verbatim. -/
def edC9 : EditionPayload :=
  { title := "T"
    titleSlug := ""
    images := []
    foreignEditionId := "abc777"
    monitored := true
    manualAdd := true }

/-- The add payload of that scenario. -/
def pC9 : AddPayload :=
  { monitored := true
    searchForNewBook := true
    authorMonitored := false
    qualityProfileId := 1
    metadataProfileId := 1
    foreignAuthorId := "unknown-author"
    rootFolderPath := "/books"
    editions := [edC9]
    foreignBookId := none }

/-- A book carrying both goodreads identifiers and a titled author. -/
def bookC6 : Book :=
  { title := some "T"
    author := some { authorName := some "A" }
    foreignEditionId := some "e1"
    foreignBookId := some "b1" }

/-- A book carrying only the edition identifier. -/
def bookC6w : Book :=
  { title := some "T", foreignEditionId := some "e1" }

/-- The payload submitted when the caller supplies fe-9 explicitly in the
no-identifier scenario. -/
def pC4 : AddPayload :=
  { monitored := true
    searchForNewBook := true
    authorMonitored := false
    qualityProfileId := 1
    metadataProfileId := 1
    foreignAuthorId := "unknown-author"
    rootFolderPath := "/books"
    editions := [{ title := "T", titleSlug := "", images := [], foreignEditionId := "fe-9",
                   monitored := true, manualAdd := true }]
    foreignBookId := none }

/-!  The claims. -/

/-- C1: for every invocation of addBookToReadarr that reaches the add
submission, the submitted payload has a non-empty editions array and
every entry carries a non-empty foreignEditionId; no add request is
issued with an empty or identifier-less editions list. -/
theorem c1_submitted_editions_valid (env : Env) (data : ReqData) (p : AddPayload)
    (h : Call.addSubmit p ∈ (addBookToReadarr env data).2) :
    p.editions ≠ [] ∧ ∀ e ∈ p.editions, e.foreignEditionId ≠ "" := by
  obtain ⟨b, hb⟩ := submit_payload_shape env data p h
  rw [hb]
  exact ⟨buildEditionsPayload_ne_nil _ _ _, buildEditionsPayload_ids_ne _ _ _⟩

/-- Witness for C1: a concrete run that reaches the submission, with the
theorem discharged at it. -/
theorem c1_submitted_editions_valid_witness :
    Call.addSubmit pC7 ∈ (addBookToReadarr envC7 dataC7).2 ∧
      pC7.editions ≠ [] ∧ ∀ e ∈ pC7.editions, e.foreignEditionId ≠ "" :=
  ⟨by decide, c1_submitted_editions_valid envC7 dataC7 pC7 (by decide)⟩

/-- Falsy-or under the string coercion: the first operand when truthy,
else the second. -/
theorem jsStr_jsOrS (a b : Option String) :
    jsStr (jsOrS a b) = if truthyS a then jsStr a else jsStr b := by
  unfold jsOrS
  split <;> rfl

/-- A falsy value coerces to the empty string. -/
theorem jsStr_of_falsy {a : Option String} (h : truthyS a = false) : jsStr a = "" := by
  cases a with
  | none => rfl
  | some s =>
    simp only [truthyS, ne_eq, decide_eq_false_iff_not, not_not] at h
    simp [jsStr, h]

/-- A falsy-or against undefined coerces like the operand itself. -/
theorem jsStr_jsOrS_none (a : Option String) : jsStr (jsOrS a none) = jsStr a := by
  cases a with
  | none => rfl
  | some s =>
    by_cases hs : s = ""
    · subst hs; rfl
    · simp [jsOrS, truthyS, hs, jsStr]

/-- Modelled from the spec words of the edition transform: the first
non-empty identifier among foreignEditionId, goodreadsEditionId,
goodreadsId, foreignId, foreign_id, editionId, id, in that preference
order, or empty when none is. -/
def specPreferredId (e : EditionRec) : String :=
  match [e.foreignEditionId, e.goodreadsEditionId, e.goodreadsId, e.foreignId,
      e.foreign_id, e.editionId, e.id].findSome?
      (fun o => match o with
        | some s => if s = "" then none else some s
        | none => none) with
  | some s => s
  | none => ""

/-- The falsy-or chain over a list agrees with first-non-empty search. -/
theorem jsStr_chain_spec (l : List (Option String)) :
    jsStr (l.foldr jsOrS none) =
      (match l.findSome? (fun o => match o with
          | some s => if s = "" then none else some s
          | none => none) with
       | some s => s
       | none => "") := by
  induction l with
  | nil => rfl
  | cons o rest ih =>
    cases o with
    | none => simpa [jsOrS, truthyS, List.findSome?] using ih
    | some s =>
      by_cases hs : s = ""
      · subst hs
        simpa [jsOrS, truthyS, List.findSome?] using ih
      · simp [jsOrS, truthyS, hs, List.findSome?, jsStr]

/-- C5: the edition transform takes each identifier from
foreignEditionId, goodreadsEditionId, goodreadsId, foreignId, foreign_id,
editionId, id in that preference order, drops every transformed entry
whose identifier is empty, and on the two-candidate example keeps only
the second. -/
theorem c5_edition_transform_contract :
    (∀ (b : Book) (e : EditionRec),
        (transformEdition b e).foreignEditionId = specPreferredId e) ∧
    (∀ (b : Book) (es : List EditionRec),
        (editionTransform b es).all (fun e => e.foreignEditionId != "") = true) ∧
    editionTransform {} [{ title := some "X", foreignEditionId := some "" },
                         { title := some "Y", foreignEditionId := some "123" }] =
      [{ title := "Y", titleSlug := "", images := [], foreignEditionId := "123",
         monitored := true, manualAdd := true }] := by
  refine ⟨?_, ?_, by decide⟩
  · intro b e
    show jsStr (editionIdChain e) = specPreferredId e
    unfold specPreferredId
    rw [← jsStr_chain_spec]
    simp only [editionIdChain, List.foldr, jsStr_jsOrS, jsStr_jsOrS_none]
    by_cases hi : truthyS e.id = true
    · simp [hi]
    · rw [jsStr_of_falsy (show truthyS e.id = false by simpa using hi)]
      simp [show truthyS e.id = false by simpa using hi, jsStr]
  · intro b es
    rw [List.all_eq_true]
    intro e he
    rw [bne_iff_ne]
    exact editionTransform_ids_ne b es e he

/-- C8: whenever neither the caller term nor the book fields yield a
truthy search term, addBookToReadarr fails before issuing any outbound
call: the thrown error is the missing-term error and the trace is empty. -/
theorem c8_empty_term_fails_before_network (env : Env) (data : ReqData)
    (h : truthyS (computeSearchTerm data) = false) :
    addBookToReadarr env data = (.error lookupAuthorRequiresTermMsg, []) := by
  have h1 : lookupReadarrAuthorM env (computeSearchTerm data) =
      (.error lookupAuthorRequiresTermMsg, []) := by
    unfold lookupReadarrAuthorM
    rw [if_pos (by simp [h])]
  simp [addBookToReadarr, stage1, h1]

/-- Witness for C8: the empty request has no search term and fails with
the missing-term error and an empty trace. -/
theorem c8_empty_term_witness :
    truthyS (computeSearchTerm {}) = false ∧
      addBookToReadarr envTriv {} = (.error lookupAuthorRequiresTermMsg, []) :=
  ⟨by decide, c8_empty_term_fails_before_network envTriv {} (by decide)⟩

/-- When the primary author lookup always returns zero results, strategy
1 resolves nothing. -/
theorem strat1Loop_none_of_empty (env : Env)
    (hfail : ∀ t, env.authorLookup t = some []) :
    ∀ cands, (strat1Loop env cands).1 = none := by
  intro cands
  induction cands with
  | nil => rfl
  | cons c rest ih =>
    simp only [strat1Loop, hfail c]
    simpa [consCall] using ih

/-- Counterexample to C2: the primary lookups all yield zero results and
the secondary provider succeeds for the second candidate, yet the
resolved author is the strategy-4 pattern-parsed record, because the
secondary loop aborts when its first candidate lookup throws. -/
theorem c2_secondary_not_selected_counterexample :
    extractAuthorNameCandidates bookC2 (some "Zelazny, Roger") = ["Roger Zelazny", "Frank Herbert"] ∧
    (∀ c ∈ extractAuthorNameCandidates bookC2 (some "Zelazny, Roger"),
        envC2.authorLookup c = some []) ∧
    envC2.bookInfoAuthor "Frank Herbert" = some [biRec] ∧
    (resolveAuthorChain envC2 bookC2 (some "Zelazny, Roger")).1 =
      .ok { bookC2 with author := some strat4RecC2 } ∧
    strat4RecC2 ≠ biRec := by
  refine ⟨by decide, ?_, by decide, by decide, by decide⟩
  intro c _
  rfl

/-- C2 amended: when the author is being resolved, every primary lookup
yields no results, and the secondary provider succeeds for the FIRST
extracted candidate, the resolved author is the secondary provider's
first record — never a later strategy's. -/
theorem c2_amended_secondary_first_candidate (env : Env) (book : Book) (st : Option String)
    (hinc : authorIncomplete book.author = true)
    (hfail : ∀ t, env.authorLookup t = some [])
    (c : String) (rest : List String)
    (hcands : extractAuthorNameCandidates book st = c :: rest)
    (a : AuthorRec) (l : List AuthorRec)
    (hsec : env.bookInfoAuthor c = some (a :: l)) :
    (resolveAuthorChain env book st).1 = .ok { book with author := some a } := by
  have hs1 := strat1Loop_none_of_empty env hfail (extractAuthorNameCandidates book st)
  rw [hcands] at hs1
  have hcore : (authorChainCore env book st).1 = some a := by
    simp only [authorChainCore, hcands]
    rw [if_neg (by simp)]
    rw [hs1]
    simp only [strat2Loop, lookupBookInfoStr, hsec]
    simp
  simp only [resolveAuthorChain, hinc, if_true]
  rw [hcore]

/-- Witness for the amended C2 at a concrete environment. -/
theorem c2_amended_witness :
    (resolveAuthorChain envC2w bookC2w none).1 = .ok { bookC2w with author := some biRec } :=
  c2_amended_secondary_first_candidate envC2w bookC2w none (by decide) (fun _ => rfl)
    "Frank Herbert" [] (by decide) biRec [] (by decide)

/-- Counterexample to C3: a book whose author has a name but no foreign
identifier — incomplete in the claim's sense — bypasses the chain
entirely: the result is the unchanged book with zero lookups. -/
theorem c3_incomplete_faid_bypassed_counterexample :
    Option.bind bookC3.author AuthorRec.foreignAuthorId = none ∧
    truthyS (Option.bind bookC3.author AuthorRec.authorName) = true ∧
    resolveAuthorChain envTriv bookC3 none = (.ok bookC3, []) := by
  exact ⟨rfl, by decide, by decide⟩

/-- C3 amended: the chain is bypassed exactly when the author is present
with a truthy authorName (foreignAuthorId is not consulted); otherwise
the chain runs and either rewrites the author or fails. -/
theorem c3_amended_chain_condition (env : Env) (book : Book) (st : Option String) :
    (authorIncomplete book.author = false → resolveAuthorChain env book st = (.ok book, [])) ∧
    (authorIncomplete book.author = true →
      (∃ a cs, resolveAuthorChain env book st = (.ok { book with author := some a }, cs)) ∨
      resolveAuthorChain env book st =
        (.error authorResolutionFailedMsg, (authorChainCore env book st).2)) := by
  constructor
  · intro h
    simp [resolveAuthorChain, h]
  · intro h
    simp only [resolveAuthorChain, h, if_true]
    rcases hc : (authorChainCore env book st).1 with _ | a
    · right
      simp [hc]
    · left
      exact ⟨a, (authorChainCore env book st).2, by simp [hc]⟩

/-- Witness for the amended C3 at a concrete book with a named author. -/
theorem c3_amended_witness :
    resolveAuthorChain envTriv bookC3 none = (.ok bookC3, []) :=
  (c3_amended_chain_condition envTriv bookC3 none).1 (by decide)

/-- Counterexample to C4: the caller supplies an explicit
foreignEditionId, yet an edition lookup call is still issued (the two
resolution passes are not short-circuited). -/
theorem c4_passes_not_short_circuited_counterexample :
    truthyS dataC4.foreignEditionId = true ∧
    Call.editionLookup "T Unknown Author" ∈ (addBookToReadarr (envClock 1000) dataC4).2 := by
  exact ⟨by decide, by decide⟩

/-- C4 amended: an explicit caller identifier short-circuits the edition
transform and synthesis — every submitted payload then carries exactly one
edition record whose identifier is the string form of the caller value —
but the resolution passes themselves still run. -/
theorem c4_amended_caller_id_singleton (env : Env) (data : ReqData) (p : AddPayload)
    (hfei : truthyS data.foreignEditionId = true)
    (h : Call.addSubmit p ∈ (addBookToReadarr env data).2) :
    ∃ e, p.editions = [e] ∧ e.foreignEditionId = jsStr data.foreignEditionId := by
  obtain ⟨b, hb⟩ := submit_payload_shape env data p h
  rw [buildEditionsPayload_of_truthy b env.now hfei] at hb
  exact ⟨mkBookEdition b (jsStr data.foreignEditionId), hb, rfl⟩

/-- Witness for the amended C4 at a concrete run. -/
theorem c4_amended_witness :
    truthyS dataC4.foreignEditionId = true ∧
    Call.addSubmit pC4 ∈ (addBookToReadarr (envClock 1000) dataC4).2 ∧
    (∃ e, pC4.editions = [e] ∧ e.foreignEditionId = jsStr dataC4.foreignEditionId) :=
  ⟨by decide, by decide,
    c4_amended_caller_id_singleton (envClock 1000) dataC4 pC4 (by decide) (by decide)⟩

/-- Counterexample to C6: with both goodreads identifiers present the two
passes order their first two terms differently, and Pass B appends the
already-present original term again. -/
theorem c6_term_lists_differ_counterexample :
    buildEditionTermsA bookC6 (some "T") = ["goodreads:e1", "goodreads:b1", "T A", "A T", "T"] ∧
    buildEditionTermsB bookC6 (some "T") = ["goodreads:b1", "goodreads:e1", "T A", "A T", "T", "T"] ∧
    buildEditionTermsA bookC6 (some "T") ≠ buildEditionTermsB bookC6 (some "T") := by
  exact ⟨by decide, by decide, by decide⟩

/-- C6 amended: the two term lists agree element for element whenever at
most one of the two goodreads identifiers is present and the original
term is not already among the Pass A terms. -/
theorem c6_amended_term_lists (b : Book) (t : Option String)
    (h1 : truthyS b.foreignEditionId = false ∨ truthyS b.foreignBookId = false)
    (h2 : truthyS t = false ∨ jsStr t ∉ buildEditionTermsA b none) :
    buildEditionTermsA b t = buildEditionTermsB b t := by
  have hbase : goodreadsTermOf b.foreignEditionId ++ goodreadsTermOf b.foreignBookId =
      goodreadsTermOf b.foreignBookId ++ goodreadsTermOf b.foreignEditionId := by
    rcases h1 with h | h <;> simp [goodreadsTermOf, h]
  have hA0 : buildEditionTermsA b none =
      goodreadsTermOf b.foreignEditionId ++ goodreadsTermOf b.foreignBookId ++
        editionTermsTail b := by
    simp [buildEditionTermsA]
  simp only [buildEditionTermsA, buildEditionTermsB]
  rw [← hbase]
  cases t with
  | none => simp [truthyS]
  | some s =>
    by_cases hs : s = ""
    · subst hs
      simp [truthyS]
    · have hmem : s ∉ goodreadsTermOf b.foreignEditionId ++ goodreadsTermOf b.foreignBookId ++
          editionTermsTail b := by
        rcases h2 with h | h
        · exact absurd h (by simp [truthyS, hs])
        · rw [hA0] at h
          simpa [jsStr] using h
      simp only [List.mem_append, not_or] at hmem
      simp [truthyS, hs, jsStr, hmem.1.1, hmem.1.2, hmem.2]

/-- Witness for the amended C6 at a concrete book and fresh term. -/
theorem c6_amended_witness :
    buildEditionTermsA bookC6w (some "Q") = buildEditionTermsB bookC6w (some "Q") :=
  c6_amended_term_lists bookC6w (some "Q") (.inr (by decide)) (.inr (by decide))

/-- Counterexample to C7: both upstream profile lists are empty, yet the
run succeeds and issues its add submission, because the caller supplied
both profile ids and the lists are never fetched. -/
theorem c7_caller_ids_bypass_counterexample :
    envC7.qualityProfiles = some [] ∧ envC7.metadataProfiles = some [] ∧
    (addBookToReadarr envC7 dataC7).1 = .ok (pC7, msgC7) ∧
    Call.addSubmit pC7 ∈ (addBookToReadarr envC7 dataC7).2 := by
  exact ⟨rfl, rfl, by decide, by decide⟩

/-- C7 amended: when the caller omits at least one profile id and both
upstream profile lists are empty, the workflow fails and never issues an
add submission. -/
theorem c7_amended_empty_profiles_no_submit (env : Env) (data : ReqData)
    (hq : env.qualityProfiles = some []) (hm : env.metadataProfiles = some [])
    (hids : ¬(truthyN data.qualityProfileId = true ∧ truthyN data.metadataProfileId = true)) :
    (∃ e, (addBookToReadarr env data).1 = .error e) ∧
    ∀ p, Call.addSubmit p ∉ (addBookToReadarr env data).2 := by
  have hspfst : (stageProfiles env data).1 = .error noQualityProfilesMsg := by
    simp only [stageProfiles, hq, hm]
    rw [if_neg hids]
  have hs1 := noSub_stage1 env (computeSearchTerm data)
  have hspsub := noSub_stageProfiles env data
  simp only [addBookToReadarr]
  rcases h1 : (stage1 env (computeSearchTerm data)).1 with e | lk
  · exact ⟨⟨e, rfl⟩, fun p => hs1 p⟩
  · rcases hb : data.book with _ | book0
    · exact ⟨⟨typeErrorBookMsg, rfl⟩, fun p => hs1 p⟩
    · have hrc := noSub_resolveAuthorChain env book0 (computeSearchTerm data)
      rcases h2 : (resolveAuthorChain env book0 (computeSearchTerm data)).1 with e | book1
      · dsimp only
        rw [h2]
        exact ⟨⟨e, rfl⟩, fun p => noSub_append hs1 hrc p⟩
      · dsimp only
        rw [h2, hspfst]
        exact ⟨⟨noQualityProfilesMsg, rfl⟩, fun p => noSub_append (noSub_append hs1 hrc) hspsub p⟩

/-- Witness for the amended C7 with omitted profile ids. -/
theorem c7_amended_witness :
    (∃ e, (addBookToReadarr envC7 dataC7w).1 = .error e) ∧
    ∀ p, Call.addSubmit p ∉ (addBookToReadarr envC7 dataC7w).2 :=
  c7_amended_empty_profiles_no_submit envC7 dataC7w rfl rfl (by decide)

/-!  Which error messages each stage can surface: none of them is the
empty-editions diagnostics message, whose branch is unreachable. -/

theorem lookupReadarrAuthorM_error_ne (env : Env) (t : Option String) (e : String)
    (h : (lookupReadarrAuthorM env t).1 = .error e) : e ≠ noValidEditionMsg := by
  unfold lookupReadarrAuthorM at h
  split at h
  · simp at h
    subst h
    decide
  · split at h
    · simp at h
      subst h
      decide
    · exact absurd h (by simp)

theorem stage1_error_ne (env : Env) (st : Option String) (e : String)
    (h : (stage1 env st).1 = .error e) : e ≠ noValidEditionMsg := by
  simp only [stage1] at h
  rcases hA : (lookupReadarrAuthorM env st).1 with e1 | rs
  · rw [hA] at h
    simp at h
    subst h
    exact lookupReadarrAuthorM_error_ne env st e1 hA
  · rw [hA] at h
    dsimp only at h
    by_cases hrs : rs.isEmpty = true
    · rw [if_pos hrs] at h
      rcases hB : (lookupBookInfoStr env (jsStr st)).1 with e2 | rs2
      · rw [hB] at h
        simp at h
        subst h
        exact author_lookup_failed_ne (jsShowS st)
      · rw [hB] at h
        dsimp only at h
        by_cases hr2 : rs2.isEmpty = true
        · rw [if_pos hr2] at h
          simp at h
          subst h
          exact author_lookup_failed_ne (jsShowS st)
        · rw [if_neg hr2] at h
          exact absurd h (by simp)
    · rw [if_neg hrs] at h
      exact absurd h (by simp)

theorem resolveAuthorChain_error_msg (env : Env) (b : Book) (st : Option String) (e : String)
    (h : (resolveAuthorChain env b st).1 = .error e) : e = authorResolutionFailedMsg := by
  simp only [resolveAuthorChain] at h
  split at h
  · split at h
    · exact absurd h (by simp)
    · simp at h
      exact h.symm
  · exact absurd h (by simp)

theorem stageProfiles_error_ne (env : Env) (data : ReqData) (e : String)
    (h : (stageProfiles env data).1 = .error e) : e ≠ noValidEditionMsg := by
  unfold stageProfiles at h
  split at h
  · exact absurd h (by simp)
  · split at h
    · simp at h; subst h; decide
    · split at h
      · simp at h; subst h; decide
      · split at h
        · simp at h; subst h; decide
        · split at h
          · simp at h; subst h; decide
          · exact absurd h (by simp)

theorem stageRoot_error_msg (env : Env) (data : ReqData) (e : String)
    (h : (stageRoot env data).1 = .error e) : e = noRootFolderMsg := by
  simp only [stageRoot] at h
  split at h
  · exact absurd h (by simp)
  · split at h
    · simp at h
      exact h.symm
    · split at h
      · exact absurd h (by simp)
      · simp at h
        exact h.symm

theorem stageFaid_error_msg (env : Env) (b : Book) (e : String)
    (h : (stageFaid env b).1 = .error e) : e = faidMissingMsg := by
  simp only [stageFaid] at h
  split at h
  · exact absurd h (by simp)
  · split at h
    · exact absurd h (by simp)
    · simp at h
      exact h.symm

/-- The empty-editions diagnostics error of line 939 can never surface:
its guard is unreachable because the payload builder always yields an
entry, and no other thrown message equals it. -/
theorem run_never_noValidEdition (env : Env) (data : ReqData) :
    (addBookToReadarr env data).1 ≠ .error noValidEditionMsg := by
  simp only [addBookToReadarr]
  rcases h1 : (stage1 env (computeSearchTerm data)).1 with e | lk
  · intro hcon
    simp at hcon
    exact stage1_error_ne env (computeSearchTerm data) e h1 hcon
  · rcases hb : data.book with _ | book0
    · intro hcon
      simp at hcon
      exact absurd hcon (by decide)
    · dsimp only
      rcases h2 : (resolveAuthorChain env book0 (computeSearchTerm data)).1 with e | book1
      · intro hcon
        simp at hcon
        have := resolveAuthorChain_error_msg env book0 (computeSearchTerm data) e h2
        subst hcon
        exact absurd this (by decide)
      · rcases h3 : (stageProfiles env data).1 with e | qpmp
        · intro hcon
          simp at hcon
          exact stageProfiles_error_ne env data e h3 hcon
        · dsimp only
          by_cases h4 : book1.author.isNone = true
          · rw [if_pos h4]
            intro hcon
            simp at hcon
            exact absurd hcon (by decide)
          · rw [if_neg h4]
            rcases h5 : (stageRoot env data).1 with e | rfp
            · intro hcon
              simp at hcon
              have := stageRoot_error_msg env data e h5
              subst hcon
              exact absurd this (by decide)
            · rcases h6 : (stageFaid env book1).1 with e | faid
              · intro hcon
                simp at hcon
                have := stageFaid_error_msg env book1 e h6
                subst hcon
                exact absurd this (by decide)
              · dsimp only
                by_cases h7 : (buildEditionsPayload data.foreignEditionId
                    (passB env data.term (passA env data.term (normalizeAuthorName book1)).1).1
                    env.now).isEmpty = true
                · exact absurd (List.isEmpty_iff.mp h7)
                    (buildEditionsPayload_ne_nil _ _ _)
                · rw [if_neg h7]
                  split
                  · simp
                  · intro hcon
                    simp at hcon
                    exact absurd hcon (by decide)

/-- C10: with the upstream behaviour held fixed and only the clock
different, the same request produces add payloads whose synthetic edition
identifiers differ, so re-running an add can create distinct entries. -/
theorem c10_timestamp_nondeterminism :
    (addBookToReadarr (envClock 1000) dataC10).1 = .ok (pC10 1000, msgC10) ∧
    (addBookToReadarr (envClock 2000) dataC10).1 = .ok (pC10 2000, msgC10) ∧
    (envClock 1000).authorLookup = (envClock 2000).authorLookup ∧
    (envClock 1000).bookInfoAuthor = (envClock 2000).bookInfoAuthor ∧
    (envClock 1000).bookLookup = (envClock 2000).bookLookup ∧
    (envClock 1000).editionLookup = (envClock 2000).editionLookup ∧
    (envClock 1000).qualityProfiles = (envClock 2000).qualityProfiles ∧
    (envClock 1000).metadataProfiles = (envClock 2000).metadataProfiles ∧
    (envClock 1000).rootFolders = (envClock 2000).rootFolders ∧
    (envClock 1000).addOk = (envClock 2000).addOk ∧
    (pC10 1000).editions.map EditionPayload.foreignEditionId = ["synthetic-1000"] ∧
    (pC10 2000).editions.map EditionPayload.foreignEditionId = ["synthetic-2000"] ∧
    pC10 1000 ≠ pC10 2000 := by
  refine ⟨by decide, by decide, rfl, rfl, rfl, rfl, rfl, rfl, rfl, rfl, by decide, by decide, by decide⟩

/-- Core of the synthetic-fallback analysis: a book entering the edition
passes with no edition identifier of its own, no usable edition lookup and
no caller-supplied identifier yields exactly one payload edition, tagged
synthetic- or fallback- plus the clock. -/
theorem c9_core (env : Env) (term : Option String) (fei0 : Option String) (b2 : Book)
    (hf : truthyS fei0 = false)
    (hfei : truthyS b2.foreignEditionId = false)
    (hfbi : truthyS b2.foreignBookId = false)
    (h13 : truthyS b2.isbn13 = false)
    (h10 : truthyS b2.isbn10 = false)
    (hed : b2.editions = none ∨ b2.editions = some [])
    (hlook : ∀ t, env.editionLookup t = none ∨ env.editionLookup t = some []) :
    ∃ ed, buildEditionsPayload fei0 (passB env term (passA env term b2).1).1 env.now = [ed] ∧
      syntheticPattern ed.foreignEditionId = true := by
  have hA := passA_empty_result env term b2 hed hlook
  by_cases ht : truthyS b2.title = true
  · rw [if_pos ht] at hA
    have hfe1 : (synthEditionA b2 env.now).foreignEditionId
        = some ("synthetic-" ++ toString env.now) := by
      simp [synthEditionA, jsOrS, hfei, hfbi, jsStr]
    have htr : truthyS (synthEditionA b2 env.now).foreignEditionId = true := by
      rw [hfe1]
      simp [truthyS]
      exact string_append_ne_empty_left (by decide)
    have hskip : passB env term { b2 with editions := some [synthEditionA b2 env.now] }
        = ({ b2 with editions := some [synthEditionA b2 env.now] }, []) := by
      apply passB_skip
      simp [hasForeignEdIdent, htr]
    obtain ⟨hpay, hid⟩ := buildEditionsPayload_single_transform hf
      { b2 with editions := some [synthEditionA b2 env.now] } (synthEditionA b2 env.now)
      rfl htr env.now
    refine ⟨transformEdition { b2 with editions := some [synthEditionA b2 env.now] }
      (synthEditionA b2 env.now), ?_, ?_⟩
    · rw [hA, hskip]
      exact hpay
    · rw [hid, hfe1]
      exact syntheticPattern_synthetic env.now
  · rw [if_neg ht] at hA
    have hg : b2.editions.getD [] = [] := by
      rcases hed with h | h <;> rw [h] <;> rfl
    rw [hg] at hA
    have hno : hasForeignEdIdent
        (({ b2 with editions := some ([] : List EditionRec) }).editions.getD []) = false := rfl
    have hB := passB_fallback_result env term { b2 with editions := some ([] : List EditionRec) }
      hno hlook
    have hfe2 : (fallbackEditionB { b2 with editions := some ([] : List EditionRec) }
        env.now).foreignEditionId = some ("fallback-" ++ toString env.now) := by
      simp [fallbackEditionB, jsOrS, hfei, hfbi, h13, h10, jsStr]
    have htr2 : truthyS (fallbackEditionB { b2 with editions := some ([] : List EditionRec) }
        env.now).foreignEditionId = true := by
      rw [hfe2]
      simp [truthyS]
      exact string_append_ne_empty_left (by decide)
    obtain ⟨hpay, hid⟩ := buildEditionsPayload_single_transform hf
      { { b2 with editions := some ([] : List EditionRec) } with
        editions := some [fallbackEditionB { b2 with editions := some ([] : List EditionRec) }
          env.now] }
      (fallbackEditionB { b2 with editions := some ([] : List EditionRec) } env.now)
      rfl htr2 env.now
    refine ⟨transformEdition
      { { b2 with editions := some ([] : List EditionRec) } with
        editions := some [fallbackEditionB { b2 with editions := some ([] : List EditionRec) }
          env.now] }
      (fallbackEditionB { b2 with editions := some ([] : List EditionRec) } env.now), ?_, ?_⟩
    · rw [hA, hB]
      exact hpay
    · rw [hid, hfe2]
      exact syntheticPattern_fallback env.now

/-- Counterexample to C9: a book with no ISBN-13, ISBN-10, ASIN or
foreignBookId whose edition lookups all return empty results, yet the
submitted edition identifier is the verbatim book-level foreignEditionId
abc777, which matches neither synthetic-digits nor fallback-digits. -/
theorem c9_synthetic_pattern_counterexample :
    truthyS bookC9.isbn13 = false ∧ truthyS bookC9.isbn10 = false ∧
    truthyS bookC9.asin = false ∧ truthyS bookC9.foreignBookId = false ∧
    (∀ t, (envClock 99).editionLookup t = some []) ∧
    (addBookToReadarr (envClock 99) dataC9).1 = .ok (pC9, msgC10) ∧
    pC9.editions = [edC9] ∧ syntheticPattern edC9.foreignEditionId = false := by
  refine ⟨rfl, rfl, rfl, rfl, fun _ => rfl, by decide, rfl, by decide⟩

/-- C9 amended: when additionally the book carries no foreignEditionId of
its own and the caller supplies none, a run whose edition lookups never
return a usable result submits exactly one edition whose identifier
matches synthetic-digits or fallback-digits, and the run never fails with
the no-valid-edition error. -/
theorem c9_amended_synthetic_pattern (env : Env) (data : ReqData) (book : Book)
    (hbook : data.book = some book)
    (hfei : truthyS book.foreignEditionId = false)
    (hfbi : truthyS book.foreignBookId = false)
    (h13 : truthyS book.isbn13 = false)
    (h10 : truthyS book.isbn10 = false)
    ( _hasin : truthyS book.asin = false)
    (hed : book.editions = none ∨ book.editions = some [])
    (hcaller : truthyS data.foreignEditionId = false)
    (hlook : ∀ t, env.editionLookup t = none ∨ env.editionLookup t = some []) :
    (∀ p, Call.addSubmit p ∈ (addBookToReadarr env data).2 →
        ∃ ed, p.editions = [ed] ∧ syntheticPattern ed.foreignEditionId = true) ∧
    (addBookToReadarr env data).1 ≠ .error noValidEditionMsg := by
  refine ⟨?_, run_never_noValidEdition env data⟩
  intro p hmem
  have hs1 := noSub_stage1 env (computeSearchTerm data)
  simp only [addBookToReadarr] at hmem
  split at hmem
  · exact absurd hmem (hs1 p)
  · split at hmem
    · exact absurd hmem (hs1 p)
    · next book0 hbook0 =>
      have hb0 : book0 = book := by
        rw [hbook] at hbook0
        injection hbook0 with h
        exact h.symm
      subst hb0
      have hrc := noSub_resolveAuthorChain env book0 (computeSearchTerm data)
      split at hmem
      · exact absurd hmem (noSub_append hs1 hrc p)
      · next book1 hrc1 =>
        have hshape := book2_shape env book0 (computeSearchTerm data) book1 hrc1
        have hfei2 : truthyS (normalizeAuthorName book1).foreignEditionId = false := by
          rcases hshape with h2 | ⟨a, h2⟩ <;> rw [h2] <;> exact hfei
        have hfbi2 : truthyS (normalizeAuthorName book1).foreignBookId = false := by
          rcases hshape with h2 | ⟨a, h2⟩ <;> rw [h2] <;> exact hfbi
        have h132 : truthyS (normalizeAuthorName book1).isbn13 = false := by
          rcases hshape with h2 | ⟨a, h2⟩ <;> rw [h2] <;> exact h13
        have h102 : truthyS (normalizeAuthorName book1).isbn10 = false := by
          rcases hshape with h2 | ⟨a, h2⟩ <;> rw [h2] <;> exact h10
        have hed2 : (normalizeAuthorName book1).editions = none ∨
            (normalizeAuthorName book1).editions = some [] := by
          rcases hshape with h2 | ⟨a, h2⟩ <;> rw [h2] <;> exact hed
        have hkey := c9_core env data.term data.foreignEditionId (normalizeAuthorName book1)
          hcaller hfei2 hfbi2 h132 h102 hed2 hlook
        have hsp := noSub_stageProfiles env data
        split at hmem
        · exact absurd hmem (noSub_append (noSub_append hs1 hrc) hsp p)
        · next qpmp _ =>
          split at hmem
          · exact absurd hmem (noSub_append (noSub_append hs1 hrc) hsp p)
          · have hsr := noSub_stageRoot env data
            split at hmem
            · exact absurd hmem (noSub_append (noSub_append (noSub_append hs1 hrc) hsp) hsr p)
            · next rfp _ =>
              have hsf := noSub_stageFaid env book1
              split at hmem
              · exact absurd hmem
                  (noSub_append (noSub_append (noSub_append (noSub_append hs1 hrc) hsp) hsr) hsf p)
              · next faid _ =>
                have hpa := noSub_passA env data.term (normalizeAuthorName book1)
                have hpb := noSub_passB env data.term
                  (passA env data.term (normalizeAuthorName book1)).1
                split at hmem
                · exact absurd hmem
                    (noSub_append (noSub_append (noSub_append (noSub_append (noSub_append
                      (noSub_append hs1 hrc) hsp) hsr) hsf) hpa) hpb p)
                · split at hmem <;>
                  · rcases List.mem_append.mp hmem with h1 | h2
                    · exact absurd h1
                        (noSub_append (noSub_append (noSub_append (noSub_append (noSub_append
                          (noSub_append hs1 hrc) hsp) hsr) hsf) hpa) hpb p)
                    · rw [List.mem_singleton] at h2
                      injection h2 with h3
                      subst h3
                      obtain ⟨ed, hpay, hpat⟩ := hkey
                      exact ⟨ed, hpay, hpat⟩

/-- Witness for the amended C9 on the identifier-free book. -/
theorem c9_amended_witness :
    (∀ p, Call.addSubmit p ∈ (addBookToReadarr (envClock 55) dataC10).2 →
        ∃ ed, p.editions = [ed] ∧ syntheticPattern ed.foreignEditionId = true) ∧
    (addBookToReadarr (envClock 55) dataC10).1 ≠ .error noValidEditionMsg :=
  c9_amended_synthetic_pattern (envClock 55) dataC10 bookC10 rfl rfl rfl rfl rfl rfl
    (.inl rfl) rfl (fun _ => .inr rfl)

end NetlifyProxy
